import Mathlib

/-!
Verification development for the observations-to-insights synthesis tool.

The development shallowly embeds:
* the data-access layer `src/lib/firestore.ts` (CRUD wrappers over the
  document store, including the create-then-patch-parent-timestamp
  convention and the project-delete cascade),
* the project page `src/app/project/[id]/page.tsx` (in-memory collections,
  CRUD handlers, AI-suggestion toggle state machine, branch/duplicate,
  drag-and-drop reordering, the debounced observation-coaching loop and the
  matrix export),
* the suggestion endpoint `src/app/api/suggestions/route.ts`
  (post-processing of the raw completion text).

Document ids and timestamps are modelled as naturals (Firestore assigns
opaque fresh ids; the embedding draws them from a counter), the fractional
sort-order of observations is a rational, and JavaScript strings are Lean
strings with the handful of needed string primitives re-implemented over
character lists so that they evaluate by `decide`.
-/

namespace OTI

/-- Strategy kind, from the union type used by `createStrategy`
in the data-access layer. -/
inductive StrategyType where
  | confront
  | avoid
  | minimize
deriving DecidableEq, Repr

/-- Project record: `id`, `userId`, `name`, `archived`, timestamps. -/
structure Project where
  id : Nat
  userId : Nat
  name : String
  archived : Bool
  createdAt : Nat
  updatedAt : Nat
deriving DecidableEq, Repr

/-- Observation record: project-scoped free text with an optional short
title and an optional fractional sort-order. -/
structure Observation where
  id : Nat
  projectId : Nat
  content : String
  title : Option String := none
  order : Option Rat := none
  createdAt : Nat
deriving DecidableEq, Repr

/-- Harm record: project-scoped content linked to a set of observations
through `observationIds`. -/
structure Harm where
  id : Nat
  projectId : Nat
  observationIds : List Nat
  content : String
  createdAt : Nat
deriving DecidableEq, Repr

/-- Criterion record: project-scoped content linked to a single harm. -/
structure Criterion where
  id : Nat
  projectId : Nat
  harmId : Nat
  content : String
deriving DecidableEq, Repr

/-- Strategy record: project-scoped content linked to a single criterion,
with an optional strategy kind. -/
structure Strategy where
  id : Nat
  projectId : Nat
  criterionId : Nat
  content : String
  strategyType : Option StrategyType := none
deriving DecidableEq, Repr

/-! ## String primitives

Character-list re-implementations of the JavaScript string operations the
source uses (`trim`, `split`, `startsWith`, the two strip regexes), so
that all definitions evaluate inside the kernel. -/

/-- JavaScript `String.prototype.trim`, restricted to the ASCII whitespace
the source can actually receive (space, tab, carriage return, newline). -/
def jsTrim (s : String) : String :=
  ⟨((s.data.dropWhile Char.isWhitespace).reverse.dropWhile Char.isWhitespace).reverse⟩

/-- Helper for `jsSplitLines`: splits a character list at newline
characters, keeping empty segments exactly as JavaScript `split` does. -/
def jsSplitLinesAux : List Char → List Char → List (List Char)
  | [], acc => [acc.reverse]
  | c :: rest, acc =>
      if c = '\n' then acc.reverse :: jsSplitLinesAux rest []
      else jsSplitLinesAux rest (c :: acc)

/-- JavaScript `text.split('\n')`. -/
def jsSplitLines (s : String) : List String :=
  (jsSplitLinesAux s.data []).map (fun l => ⟨l⟩)

/-! ## Binary64 arithmetic

JavaScript numbers are IEEE-754 binary64 doubles, so the branch-order
computation `(sourceOrder + nextOrder) / 2` rounds after each operation.
The model below implements round-to-nearest, ties-to-even at precision 53
over the rationals, with unbounded exponent: this is exactly binary64 on
the normal finite range (no overflow and no subnormals), which covers
every order value the page manipulates. -/

/-- Fuel-driven floor of the binary logarithm; agrees with `Nat.log2`
whenever the fuel is at least the argument. -/
def log2Fuel : Nat → Nat → Nat
  | 0, _ => 0
  | fuel + 1, n => if 2 ≤ n then log2Fuel fuel (n / 2) + 1 else 0

/-- Floor of the binary logarithm of a natural number. -/
def natLog2 (n : Nat) : Nat := log2Fuel n n

/-- The binade exponent of a nonzero rational: the unique `k` with
`2 ^ k ≤ |x| < 2 ^ (k + 1)`. -/
def ratBinadeExp (x : ℚ) : ℤ :=
  let k0 : ℤ := (natLog2 x.num.natAbs : ℤ) - (natLog2 x.den : ℤ)
  if (2 : ℚ) ^ k0 ≤ |x| then k0 else k0 - 1

/-- Round a rational to the nearest integer, ties to even. -/
def rneInt (y : ℚ) : ℤ :=
  let f := ⌊y⌋
  let r := y - (f : ℚ)
  if r < 1 / 2 then f
  else if 1 / 2 < r then f + 1
  else if f % 2 = 0 then f else f + 1

/-- Round a rational to the nearest precision-53 dyadic, ties to even:
binary64 rounding on the normal finite range. -/
def roundB64 (x : ℚ) : ℚ :=
  if x = 0 then 0
  else
    let e := ratBinadeExp x - 52
    (rneInt (x / 2 ^ e) : ℚ) * 2 ^ e

/-- Binary64 addition: JavaScript `a + b`. -/
def addB64 (a b : ℚ) : ℚ := roundB64 (a + b)

/-- Binary64 halving: JavaScript `a / 2` (the division itself rounds,
though it is exact whenever its argument is representable). -/
def halfB64 (a : ℚ) : ℚ := roundB64 (a / 2)

/-- A rational is representable as a binary64 double (normal finite
range): an integer with at most 53 significant bits times a power of
two. -/
def isRepresentable (x : ℚ) : Prop :=
  ∃ (m e : ℤ), x = (m : ℚ) * 2 ^ e ∧ m.natAbs < 2 ^ 53

/-! ## Data-access layer (`src/lib/firestore.ts`)

Each mutating wrapper is embedded twice: as the sequence of primitive
document-store operations it issues (for claims about the persistence
traffic) and as a transformation of the mirrored store contents. -/

/-- Primitive document-store operation, tagged with the collection name. -/
inductive StoreOp where
  | addDoc (coll : String) (docId : Nat)
  | updateDoc (coll : String) (docId : Nat)
  | deleteDoc (coll : String) (docId : Nat)
deriving DecidableEq, Repr

/-- Operations issued by `updateProject`: a single update of the project
document (the wrapper always merges a fresh `updatedAt`). -/
def updateProjectOps (projectId : Nat) : List StoreOp :=
  [.updateDoc "projects" projectId]

/-- Operations issued by `createObservation`: add the observation document,
then call `updateProject` to refresh the parent timestamp. -/
def createObservationOps (projectId docId : Nat) : List StoreOp :=
  [.addDoc "observations" docId] ++ updateProjectOps projectId

/-- Operations issued by `createHarm`: add then patch the parent project. -/
def createHarmOps (projectId docId : Nat) : List StoreOp :=
  [.addDoc "harms" docId] ++ updateProjectOps projectId

/-- Operations issued by `createCriterion`: add then patch the parent
project. -/
def createCriterionOps (projectId docId : Nat) : List StoreOp :=
  [.addDoc "criteria" docId] ++ updateProjectOps projectId

/-- Operations issued by `createStrategy`: add then patch the parent
project. -/
def createStrategyOps (projectId docId : Nat) : List StoreOp :=
  [.addDoc "strategies" docId] ++ updateProjectOps projectId

/-- Operations issued by `deleteObservation`: it deletes the observation
document and nothing else. -/
def deleteObservationOps (observationId : Nat) : List StoreOp :=
  [.deleteDoc "observations" observationId]

/-- Operations issued by `deleteHarm`. -/
def deleteHarmOps (harmId : Nat) : List StoreOp :=
  [.deleteDoc "harms" harmId]

/-- Operations issued by `deleteCriterion`. -/
def deleteCriterionOps (criterionId : Nat) : List StoreOp :=
  [.deleteDoc "criteria" criterionId]

/-- Operations issued by `deleteStrategy`. -/
def deleteStrategyOps (strategyId : Nat) : List StoreOp :=
  [.deleteDoc "strategies" strategyId]

/-- Modelled from the spec: the project page imports `updateObservation`
from the data-access layer but the snapshot of that file predates it; per
section 4.1 of the spec every child-entity `update` also issues a no-op
content `update` on the parent project. -/
def updateObservationOps (projectId docId : Nat) : List StoreOp :=
  [.updateDoc "observations" docId] ++ updateProjectOps projectId

/-- Modelled from the spec: `updateHarm`, missing from the snapshot of the
data-access layer; see `updateObservationOps`. -/
def updateHarmOps (projectId docId : Nat) : List StoreOp :=
  [.updateDoc "harms" docId] ++ updateProjectOps projectId

/-- Modelled from the spec: `updateCriterion`, missing from the snapshot of
the data-access layer; see `updateObservationOps`. -/
def updateCriterionOps (projectId docId : Nat) : List StoreOp :=
  [.updateDoc "criteria" docId] ++ updateProjectOps projectId

/-- Modelled from the spec: `updateStrategy`, missing from the snapshot of
the data-access layer; see `updateObservationOps`. -/
def updateStrategyOps (projectId docId : Nat) : List StoreOp :=
  [.updateDoc "strategies" docId] ++ updateProjectOps projectId

/-- Contents of the remote document store, one list per collection. -/
structure Store where
  projects : List Project
  observations : List Observation
  harms : List Harm
  criteria : List Criterion
  strategies : List Strategy
deriving Repr

/-- Store contents after `deleteObservation`: only the one observation
document is removed. -/
def deleteObservationStore (s : Store) (observationId : Nat) : Store :=
  { s with observations := s.observations.filter (fun o => o.id ≠ observationId) }

/-- Store contents after `deleteHarm`. -/
def deleteHarmStore (s : Store) (harmId : Nat) : Store :=
  { s with harms := s.harms.filter (fun h => h.id ≠ harmId) }

/-- Store contents after `deleteCriterion`. -/
def deleteCriterionStore (s : Store) (criterionId : Nat) : Store :=
  { s with criteria := s.criteria.filter (fun c => c.id ≠ criterionId) }

/-- Store contents after `deleteStrategy`. -/
def deleteStrategyStore (s : Store) (strategyId : Nat) : Store :=
  { s with strategies := s.strategies.filter (fun st => st.id ≠ strategyId) }

/-- Store contents after `deleteProject`: the cascade first deletes every
observation, harm, criterion and strategy scoped to the project, then the
project record itself. -/
def deleteProjectStore (s : Store) (projectId : Nat) : Store :=
  { projects := s.projects.filter (fun p => p.id ≠ projectId)
    observations := s.observations.filter (fun o => o.projectId ≠ projectId)
    harms := s.harms.filter (fun h => h.projectId ≠ projectId)
    criteria := s.criteria.filter (fun c => c.projectId ≠ projectId)
    strategies := s.strategies.filter (fun st => st.projectId ≠ projectId) }

/-- Result of `getObservations`: the observations of the project, sorted
client-side by `createdAt` ascending (a stable sort, which is what the
JavaScript runtime guarantees for `Array.prototype.sort`). This is the
whole ordering logic of the wrapper; the sort-order field is not consulted
here. -/
def getObservations (s : Store) (projectId : Nat) : List Observation :=
  (s.observations.filter (fun o => o.projectId = projectId)).mergeSort
    (fun a b => a.createdAt ≤ b.createdAt)

/-- Result of `getHarms`: project-scoped harms sorted by `createdAt`
ascending. -/
def getHarms (s : Store) (projectId : Nat) : List Harm :=
  (s.harms.filter (fun h => h.projectId = projectId)).mergeSort
    (fun a b => a.createdAt ≤ b.createdAt)

/-- Result of `getCriteria`: project-scoped criteria in store order (the
wrapper performs no sort). -/
def getCriteria (s : Store) (projectId : Nat) : List Criterion :=
  s.criteria.filter (fun c => c.projectId = projectId)

/-- Result of `getStrategies`: project-scoped strategies in store order. -/
def getStrategies (s : Store) (projectId : Nat) : List Strategy :=
  s.strategies.filter (fun st => st.projectId = projectId)

/-! ## Project page state (`src/app/project/[id]/page.tsx`)

The page keeps the four entity collections in React state next to a
per-parent suggestion cache; the embedding additionally mirrors the store
collections so that claims can compare persisted and in-memory contents.
The id counter `nextId` stands for both Firestore document-id assignment
and `crypto.randomUUID`, and every generated id is fresh with respect to a
well-formed state. Handlers take `db : Bool` (is a store configured) and
`storeOk : Bool` (does the awaited store write succeed); with `db = false`
the oracle `storeOk` is never consulted, mirroring the local-only mode. -/

/-- AI suggestion item as cached by the page (used for both harm and
criterion suggestions). -/
structure Suggestion where
  id : Nat
  content : String
  selected : Bool
deriving DecidableEq, Repr

/-- AI strategy suggestion item: also carries a strategy kind (always
`confront` for fetched suggestions). -/
structure StrategySuggestion where
  id : Nat
  content : String
  stype : StrategyType
  selected : Bool
deriving DecidableEq, Repr

/-- Read a key of a JavaScript-object-as-record, modelled as an
association list. -/
def getAssoc {α : Type} (m : List (Nat × α)) (k : Nat) : Option α :=
  (m.find? (fun e => e.1 = k)).map (fun e => e.2)

/-- Update an existing key of a record through a function (the spread
update `prev` with `[k]` mapped, as the suggestion toggles do). -/
def mapAssoc {α : Type} (m : List (Nat × α)) (k : Nat) (f : α → α) :
    List (Nat × α) :=
  m.map (fun e => if e.1 = k then (e.1, f e.2) else e)

/-- Set a key of a record (the spread update the custom-input handlers
do), inserting it when absent. -/
def setAssoc {α : Type} (m : List (Nat × α)) (k : Nat) (v : α) :
    List (Nat × α) :=
  if m.any (fun e => e.1 = k) then
    m.map (fun e => if e.1 = k then (e.1, v) else e)
  else m ++ [(k, v)]

/-- Flip the `selected` flag of the suggestion with the given id (the
toggle handlers map this over the cached list). -/
def setSelected (sid : Nat) (b : Bool) (l : List Suggestion) :
    List Suggestion :=
  l.map (fun s => if s.id = sid then { s with selected := b } else s)

/-- Flip the `selected` flag of the strategy suggestion with the given
id. -/
def setSelectedStrat (sid : Nat) (b : Bool) (l : List StrategySuggestion) :
    List StrategySuggestion :=
  l.map (fun s => if s.id = sid then { s with selected := b } else s)

/-- In-memory React state of the project page, together with the mirrored
store collections and the fresh-id counter. The coaching loop has its own
dedicated model further below. -/
structure PageState where
  nextId : Nat
  newObservation : String
  observations : List Observation
  harms : List Harm
  criteria : List Criterion
  strategies : List Strategy
  storeObservations : List Observation
  storeHarms : List Harm
  storeCriteria : List Criterion
  storeStrategies : List Strategy
  harmSuggestions : List (Nat × List Suggestion)
  criterionSuggestions : List (Nat × List Suggestion)
  strategySuggestions : List (Nat × List StrategySuggestion)
  customHarmInputs : List (Nat × String)
  customCriterionInputs : List (Nat × String)
  customStrategyInputs : List (Nat × String)
  errorMessage : Option String
deriving Repr

/-- Embedding of `handleAddObservation`: trims the input (a blank trimmed
input is a no-op), clears the input field, then either persists through
`createObservation` (restoring the typed text and showing an error banner
when the awaited write fails) or, with no store configured, generates a
local id and appends locally. `now` stands for `new Date()`. The result
carries the issued store operations and the created id. -/
def handleAddObservation (db storeOk : Bool) (projectId now : Nat)
    (st : PageState) : PageState × List StoreOp × Option Nat :=
  let content := jsTrim st.newObservation
  if content = "" then (st, [], none)
  else if db then
    if storeOk then
      let id := st.nextId
      let obs : Observation :=
        { id := id, projectId := projectId, content := content, createdAt := now }
      ({ st with nextId := id + 1
                 newObservation := ""
                 storeObservations := st.storeObservations ++ [obs]
                 observations := st.observations ++ [obs] },
       createObservationOps projectId id, some id)
    else
      ({ st with newObservation := content
                 errorMessage := some "Failed to save observation" },
       [], none)
  else
    let id := st.nextId
    let obs : Observation :=
      { id := id, projectId := projectId, content := content, createdAt := now }
    ({ st with nextId := id + 1
               newObservation := ""
               observations := st.observations ++ [obs] },
     [], some id)

/-- The effective order of the branch source at array index `idx`: its
explicit order when present, falling back to the index. -/
def branchSourceOrder (st : PageState) (idx : Nat) : Rat :=
  ((st.observations.get? idx).bind (fun o => o.order)).getD (idx : Rat)

/-- The next-sibling order value the branch operation interpolates towards:
the next observation's order (defaulting to its index, an exactly
representable small integer) when the source is not last, and the binary64
sum of the source order and one when it is. -/
def branchNextOrder (st : PageState) (idx : Nat) : Rat :=
  if idx + 1 < st.observations.length then
    ((st.observations.get? (idx + 1)).bind (fun o => o.order)).getD ((idx : Rat) + 1)
  else addB64 (branchSourceOrder st idx) 1

/-- Embedding of `handleAddObservationFromBranch`: computes the branch
order as the JavaScript double evaluation of
`(sourceOrder + nextOrder) / 2` — the sum rounds to binary64, then the
halving (exact for representable arguments) — and inserts the new
observation immediately after the source. The source observation is
located with `findIndex`; the embedding covers the case where it is
present (the claims assume a valid source id). -/
def handleAddObservationFromBranch (db storeOk : Bool) (projectId now : Nat)
    (st : PageState) (sourceObsId : Nat) (content : String) :
    PageState × List StoreOp × Option Nat :=
  let idx := st.observations.findIdx (fun o => o.id = sourceObsId)
  let branchOrder := halfB64 (addB64 (branchSourceOrder st idx) (branchNextOrder st idx))
  let obs : Observation :=
    { id := st.nextId, projectId := projectId, content := content,
      order := some branchOrder, createdAt := now }
  if db then
    if storeOk then
      ({ st with nextId := st.nextId + 1
                 storeObservations := st.storeObservations ++ [obs]
                 observations := st.observations.insertIdx (idx + 1) obs },
       createObservationOps projectId st.nextId, some st.nextId)
    else
      ({ st with errorMessage := some "Failed to branch observation" }, [], none)
  else
    ({ st with nextId := st.nextId + 1
               observations := st.observations.insertIdx (idx + 1) obs },
     [], some st.nextId)

/-- Embedding of `handleDeleteObservation`: with a store, the awaited
`deleteObservation` runs first and a failure returns before the local
collection is touched; only the observation itself is removed. -/
def handleDeleteObservation (db storeOk : Bool) (st : PageState)
    (obsId : Nat) : PageState × List StoreOp :=
  if db then
    if storeOk then
      ({ st with storeObservations := st.storeObservations.filter (fun o => o.id ≠ obsId)
                 observations := st.observations.filter (fun o => o.id ≠ obsId) },
       deleteObservationOps obsId)
    else (st, [])
  else
    ({ st with observations := st.observations.filter (fun o => o.id ≠ obsId) }, [])

/-- Embedding of `handleDeleteHarm`; see `handleDeleteObservation`. -/
def handleDeleteHarm (db storeOk : Bool) (st : PageState) (harmId : Nat) :
    PageState × List StoreOp :=
  if db then
    if storeOk then
      ({ st with storeHarms := st.storeHarms.filter (fun h => h.id ≠ harmId)
                 harms := st.harms.filter (fun h => h.id ≠ harmId) },
       deleteHarmOps harmId)
    else (st, [])
  else
    ({ st with harms := st.harms.filter (fun h => h.id ≠ harmId) }, [])

/-- Embedding of `handleDeleteCriterion`; see `handleDeleteObservation`. -/
def handleDeleteCriterion (db storeOk : Bool) (st : PageState)
    (criterionId : Nat) : PageState × List StoreOp :=
  if db then
    if storeOk then
      ({ st with storeCriteria := st.storeCriteria.filter (fun c => c.id ≠ criterionId)
                 criteria := st.criteria.filter (fun c => c.id ≠ criterionId) },
       deleteCriterionOps criterionId)
    else (st, [])
  else
    ({ st with criteria := st.criteria.filter (fun c => c.id ≠ criterionId) }, [])

/-- Embedding of `handleDeleteStrategy`; see `handleDeleteObservation`. -/
def handleDeleteStrategy (db storeOk : Bool) (st : PageState)
    (strategyId : Nat) : PageState × List StoreOp :=
  if db then
    if storeOk then
      ({ st with storeStrategies := st.storeStrategies.filter (fun x => x.id ≠ strategyId)
                 strategies := st.strategies.filter (fun x => x.id ≠ strategyId) },
       deleteStrategyOps strategyId)
    else (st, [])
  else
    ({ st with strategies := st.strategies.filter (fun x => x.id ≠ strategyId) }, [])

/-- Embedding of `toggleHarmSuggestion`. Toggle on (suggestion not
selected): persist a new harm referencing exactly the one observation and
append it locally; with no store, append with a generated id. Toggle off
(selected): look up the first harm whose content equals the suggestion and
whose `observationIds` contain the parent, delete that one document from
the store (a failed delete is only logged and does not stop the local
update), then drop every matching harm from the local collection. The
cached suggestion flag flips accordingly. -/
def toggleHarmSuggestion (db storeOk : Bool) (projectId now : Nat)
    (st : PageState) (obsId sid : Nat) : PageState × List StoreOp :=
  match ((getAssoc st.harmSuggestions obsId).getD []).find? (fun s => s.id = sid) with
  | none => (st, [])
  | some sug =>
    if sug.selected then
      let harmToRemove := st.harms.find?
        (fun h => h.content = sug.content ∧ obsId ∈ h.observationIds)
      let deleted := match harmToRemove with
        | some h => if db && storeOk then deleteHarmOps h.id else []
        | none => []
      let storeHarms' := match harmToRemove with
        | some h => if db && storeOk then
            st.storeHarms.filter (fun x => x.id ≠ h.id)
          else st.storeHarms
        | none => st.storeHarms
      ({ st with storeHarms := storeHarms'
                 harms := st.harms.filter
                   (fun h => ¬ (h.content = sug.content ∧ obsId ∈ h.observationIds))
                 harmSuggestions := mapAssoc st.harmSuggestions obsId (setSelected sid false) },
       deleted)
    else
      let h : Harm :=
        { id := st.nextId, projectId := projectId, observationIds := [obsId],
          content := sug.content, createdAt := now }
      if db then
        if storeOk then
          ({ st with nextId := st.nextId + 1
                     storeHarms := st.storeHarms ++ [h]
                     harms := st.harms ++ [h]
                     harmSuggestions := mapAssoc st.harmSuggestions obsId (setSelected sid true) },
           createHarmOps projectId st.nextId)
        else (st, [])
      else
        ({ st with nextId := st.nextId + 1
                   harms := st.harms ++ [h]
                   harmSuggestions := mapAssoc st.harmSuggestions obsId (setSelected sid true) },
         [])

/-- Embedding of `toggleCriterionSuggestion`; matching is by content
equality plus `harmId` equality. The fire-and-forget insight-title
enrichment triggered on create touches only observation titles and is
modelled separately from this state transition. -/
def toggleCriterionSuggestion (db storeOk : Bool) (projectId _now : Nat)
    (st : PageState) (harmId sid : Nat) : PageState × List StoreOp :=
  match ((getAssoc st.criterionSuggestions harmId).getD []).find? (fun s => s.id = sid) with
  | none => (st, [])
  | some sug =>
    if sug.selected then
      let critToRemove := st.criteria.find?
        (fun c => c.content = sug.content ∧ c.harmId = harmId)
      let deleted := match critToRemove with
        | some c => if db && storeOk then deleteCriterionOps c.id else []
        | none => []
      let storeCriteria' := match critToRemove with
        | some c => if db && storeOk then
            st.storeCriteria.filter (fun x => x.id ≠ c.id)
          else st.storeCriteria
        | none => st.storeCriteria
      ({ st with storeCriteria := storeCriteria'
                 criteria := st.criteria.filter
                   (fun c => ¬ (c.content = sug.content ∧ c.harmId = harmId))
                 criterionSuggestions := mapAssoc st.criterionSuggestions harmId (setSelected sid false) },
       deleted)
    else
      let c : Criterion :=
        { id := st.nextId, projectId := projectId, harmId := harmId,
          content := sug.content }
      if db then
        if storeOk then
          ({ st with nextId := st.nextId + 1
                     storeCriteria := st.storeCriteria ++ [c]
                     criteria := st.criteria ++ [c]
                     criterionSuggestions := mapAssoc st.criterionSuggestions harmId (setSelected sid true) },
           createCriterionOps projectId st.nextId)
        else (st, [])
      else
        ({ st with nextId := st.nextId + 1
                   criteria := st.criteria ++ [c]
                   criterionSuggestions := mapAssoc st.criterionSuggestions harmId (setSelected sid true) },
         [])

/-- Embedding of `toggleStrategySuggestion`; matching is by content
equality plus `criterionId` equality, and the created strategy carries the
suggestion's kind. -/
def toggleStrategySuggestion (db storeOk : Bool) (projectId _now : Nat)
    (st : PageState) (criterionId sid : Nat) : PageState × List StoreOp :=
  match ((getAssoc st.strategySuggestions criterionId).getD []).find? (fun s => s.id = sid) with
  | none => (st, [])
  | some sug =>
    if sug.selected then
      let stratToRemove := st.strategies.find?
        (fun x => x.content = sug.content ∧ x.criterionId = criterionId)
      let deleted := match stratToRemove with
        | some x => if db && storeOk then deleteStrategyOps x.id else []
        | none => []
      let storeStrategies' := match stratToRemove with
        | some x => if db && storeOk then
            st.storeStrategies.filter (fun y => y.id ≠ x.id)
          else st.storeStrategies
        | none => st.storeStrategies
      ({ st with storeStrategies := storeStrategies'
                 strategies := st.strategies.filter
                   (fun x => ¬ (x.content = sug.content ∧ x.criterionId = criterionId))
                 strategySuggestions := mapAssoc st.strategySuggestions criterionId (setSelectedStrat sid false) },
       deleted)
    else
      let x : Strategy :=
        { id := st.nextId, projectId := projectId, criterionId := criterionId,
          content := sug.content, strategyType := some sug.stype }
      if db then
        if storeOk then
          ({ st with nextId := st.nextId + 1
                     storeStrategies := st.storeStrategies ++ [x]
                     strategies := st.strategies ++ [x]
                     strategySuggestions := mapAssoc st.strategySuggestions criterionId (setSelectedStrat sid true) },
           createStrategyOps projectId st.nextId)
        else (st, [])
      else
        ({ st with nextId := st.nextId + 1
                   strategies := st.strategies ++ [x]
                   strategySuggestions := mapAssoc st.strategySuggestions criterionId (setSelectedStrat sid true) },
         [])

/-- Embedding of `addCustomHarm`: trims the per-parent input, rejects a
blank, clears it, persists and appends (restoring the input and showing an
error banner on write failure), or appends locally with a generated id. -/
def addCustomHarm (db storeOk : Bool) (projectId now : Nat) (st : PageState)
    (obsId : Nat) : PageState × List StoreOp × Option Nat :=
  let content := jsTrim (((getAssoc st.customHarmInputs obsId).getD ""))
  if content = "" then (st, [], none)
  else
    let h : Harm :=
      { id := st.nextId, projectId := projectId, observationIds := [obsId],
        content := content, createdAt := now }
    if db then
      if storeOk then
        ({ st with nextId := st.nextId + 1
                   customHarmInputs := setAssoc st.customHarmInputs obsId ""
                   storeHarms := st.storeHarms ++ [h]
                   harms := st.harms ++ [h] },
         createHarmOps projectId st.nextId, some st.nextId)
      else
        ({ st with customHarmInputs := setAssoc st.customHarmInputs obsId content
                   errorMessage := some "Failed to save harm" },
         [], none)
    else
      ({ st with nextId := st.nextId + 1
                 customHarmInputs := setAssoc st.customHarmInputs obsId ""
                 harms := st.harms ++ [h] },
       [], some st.nextId)

/-- Embedding of `addCustomCriterion`; see `addCustomHarm`. -/
def addCustomCriterion (db storeOk : Bool) (projectId _now : Nat)
    (st : PageState) (harmId : Nat) : PageState × List StoreOp × Option Nat :=
  let content := jsTrim (((getAssoc st.customCriterionInputs harmId).getD ""))
  if content = "" then (st, [], none)
  else
    let c : Criterion :=
      { id := st.nextId, projectId := projectId, harmId := harmId,
        content := content }
    if db then
      if storeOk then
        ({ st with nextId := st.nextId + 1
                   customCriterionInputs := setAssoc st.customCriterionInputs harmId ""
                   storeCriteria := st.storeCriteria ++ [c]
                   criteria := st.criteria ++ [c] },
         createCriterionOps projectId st.nextId, some st.nextId)
      else
        ({ st with customCriterionInputs := setAssoc st.customCriterionInputs harmId content
                   errorMessage := some "Failed to save criterion" },
         [], none)
    else
      ({ st with nextId := st.nextId + 1
                 customCriterionInputs := setAssoc st.customCriterionInputs harmId ""
                 criteria := st.criteria ++ [c] },
       [], some st.nextId)

/-- Does the string start with the three characters HMW, as
`content.startsWith('HMW')` tests. -/
def startsWithHMW (s : String) : Bool :=
  s.data.take 3 = ['H', 'M', 'W']

/-- Embedding of `addCustomStrategy`: trims the per-parent input, rejects
a blank, prefixes the content with HMW when missing, then persists and
appends (or appends locally). No kind is passed for custom strategies. -/
def addCustomStrategy (db storeOk : Bool) (projectId _now : Nat)
    (st : PageState) (criterionId : Nat) : PageState × List StoreOp × Option Nat :=
  let content := jsTrim (((getAssoc st.customStrategyInputs criterionId).getD ""))
  if content = "" then (st, [], none)
  else
    let finalContent := if startsWithHMW content then content else "HMW " ++ content
    let x : Strategy :=
      { id := st.nextId, projectId := projectId, criterionId := criterionId,
        content := finalContent }
    if db then
      if storeOk then
        ({ st with nextId := st.nextId + 1
                   customStrategyInputs := setAssoc st.customStrategyInputs criterionId ""
                   storeStrategies := st.storeStrategies ++ [x]
                   strategies := st.strategies ++ [x] },
         createStrategyOps projectId st.nextId, some st.nextId)
      else
        ({ st with customStrategyInputs := setAssoc st.customStrategyInputs criterionId content
                   errorMessage := some "Failed to save strategy" },
         [], none)
    else
      ({ st with nextId := st.nextId + 1
                 customStrategyInputs := setAssoc st.customStrategyInputs criterionId ""
                 strategies := st.strategies ++ [x] },
       [], some st.nextId)

/-- Embedding of `handleSaveObservationContent`: optimistic local edit;
with a store, a fire-and-forget `updateObservation` is issued whose
failure is only logged (the local change is kept either way). -/
def handleSaveObservationContent (db : Bool) (projectId : Nat)
    (st : PageState) (obsId : Nat) (content : String) : PageState × List StoreOp :=
  let st' := { st with observations :=
    st.observations.map (fun o => if o.id = obsId then { o with content := content } else o) }
  if db then
    ({ st' with storeObservations :=
        st.storeObservations.map (fun o => if o.id = obsId then { o with content := content } else o) },
     updateObservationOps projectId obsId)
  else (st', [])

/-- Embedding of `handleSaveHarmContent`; see
`handleSaveObservationContent`. -/
def handleSaveHarmContent (db : Bool) (projectId : Nat) (st : PageState)
    (harmId : Nat) (content : String) : PageState × List StoreOp :=
  let st' := { st with
    harms := st.harms.map (fun h => if h.id = harmId then { h with content := content } else h) }
  if db then
    ({ st' with storeHarms :=
        st.storeHarms.map (fun h => if h.id = harmId then { h with content := content } else h) },
     updateHarmOps projectId harmId)
  else (st', [])

/-- Embedding of `handleSaveCriterionContent`. -/
def handleSaveCriterionContent (db : Bool) (projectId : Nat) (st : PageState)
    (criterionId : Nat) (content : String) : PageState × List StoreOp :=
  let st' := { st with
    criteria := st.criteria.map (fun c => if c.id = criterionId then { c with content := content } else c) }
  if db then
    ({ st' with storeCriteria :=
        st.storeCriteria.map (fun c => if c.id = criterionId then { c with content := content } else c) },
     updateCriterionOps projectId criterionId)
  else (st', [])

/-- Embedding of `handleSaveStrategyContent`. -/
def handleSaveStrategyContent (db : Bool) (projectId : Nat) (st : PageState)
    (strategyId : Nat) (content : String) : PageState × List StoreOp :=
  let st' := { st with
    strategies := st.strategies.map (fun x => if x.id = strategyId then { x with content := content } else x) }
  if db then
    ({ st' with storeStrategies :=
        st.storeStrategies.map (fun x => if x.id = strategyId then { x with content := content } else x) },
     updateStrategyOps projectId strategyId)
  else (st', [])

/-- Embedding of the initial `loadProjectData` effect: with no store
configured it leaves every collection empty and returns without error;
otherwise the four list wrappers populate the collections. -/
def loadProjectData (db : Bool) (s : Store) (projectId : Nat) :
    List Observation × List Harm × List Criterion × List Strategy :=
  if db then
    (getObservations s projectId, getHarms s projectId,
     getCriteria s projectId, getStrategies s projectId)
  else ([], [], [], [])

/-! ## Derived lookups and the matrix export -/

/-- Page helper `getHarmsForObservation`: harms whose `observationIds`
include the observation. -/
def getHarmsForObservation (harms : List Harm) (obsId : Nat) : List Harm :=
  harms.filter (fun h => obsId ∈ h.observationIds)

/-- Page helper `getCriteriaForHarm`. -/
def getCriteriaForHarm (criteria : List Criterion) (harmId : Nat) :
    List Criterion :=
  criteria.filter (fun c => c.harmId = harmId)

/-- Page helper `getStrategiesForCriterion`. -/
def getStrategiesForCriterion (strategies : List Strategy)
    (criterionId : Nat) : List Strategy :=
  strategies.filter (fun x => x.criterionId = criterionId)

/-- Header row of the matrix export. -/
def matrixHeaderRow : List String :=
  ["Observation", "Harm", "Solution Criteria", "Strategy"]

/-- Embedding of the row construction in `handleCopyMatrix`: a header row,
then a depth-first walk of the synthesis tree that pushes one row per
strategy and, whenever a node has no children, a single row padded with
empty strings. -/
def copyMatrixRows (observations : List Observation) (harms : List Harm)
    (criteria : List Criterion) (strategies : List Strategy) :
    List (List String) :=
  matrixHeaderRow :: observations.flatMap (fun obs =>
    let obsHarms := getHarmsForObservation harms obs.id
    if obsHarms.isEmpty then [[obs.content, "", "", ""]]
    else obsHarms.flatMap (fun harm =>
      let harmCriteria := getCriteriaForHarm criteria harm.id
      if harmCriteria.isEmpty then [[obs.content, harm.content, "", ""]]
      else harmCriteria.flatMap (fun crit =>
        let critStrategies := getStrategiesForCriterion strategies crit.id
        if critStrategies.isEmpty then [[obs.content, harm.content, crit.content, ""]]
        else critStrategies.map (fun strat =>
          [obs.content, harm.content, crit.content, strat.content]))))

/-- The complete Observation-Harm-Criterion-Strategy paths of the tree, in
the depth-first order the export walks them. -/
def completePaths (observations : List Observation) (harms : List Harm)
    (criteria : List Criterion) (strategies : List Strategy) :
    List (Observation × Harm × Criterion × Strategy) :=
  observations.flatMap (fun obs =>
    (getHarmsForObservation harms obs.id).flatMap (fun harm =>
      (getCriteriaForHarm criteria harm.id).flatMap (fun crit =>
        (getStrategiesForCriterion strategies crit.id).map (fun strat =>
          (obs, harm, crit, strat)))))

/-! ## Drag-and-drop reordering -/

/-- The dnd-kit `arrayMove` helper: remove the element at `from`, then
splice it back at `to` in the shortened array (the page only calls it with
indices of present elements). -/
def arrayMove {α : Type} (l : List α) (i j : Nat) : List α :=
  match l.get? i with
  | some a => (l.eraseIdx i).insertIdx j a
  | none => l

/-- Embedding of `handleDragEnd`: a drop on the dragged card itself or on
an unknown card is a no-op; otherwise the in-memory list becomes
`arrayMove` of the old list and, when a store is configured, one
order-field update per observation is issued assigning its new index (the
second component lists the (id, order) pairs passed to
`updateObservationOrder`). -/
def handleDragEnd (db : Bool) (st : PageState) (activeId overId : Nat) :
    PageState × List (Nat × Nat) :=
  if activeId = overId then (st, [])
  else
    let oldIndex := st.observations.findIdx (fun o => o.id = activeId)
    let newIndex := st.observations.findIdx (fun o => o.id = overId)
    if oldIndex < st.observations.length ∧ newIndex < st.observations.length then
      let reordered := arrayMove st.observations oldIndex newIndex
      let updates := if db then reordered.enum.map (fun e => (e.2.id, e.1)) else []
      ({ st with observations := reordered }, updates)
    else (st, [])

/-! ## Observation coaching loop

The debounced coaching request of `handleObservationChange`: every text
change clears the pending debounce timer and aborts any in-flight request;
text whose trimmed form is shorter than 10 characters arms no timer;
otherwise a timer is armed that, 2000 ms later and if still pending,
issues exactly one coaching request for the trimmed text. The model runs a
timeline of (time, text) change events in order, firing a due timer before
the event that follows it, and flushes the last pending timer at the
end; `sent` collects the texts of the issued coaching requests. -/

/-- State of the coaching loop: the armed timer (fire time and the captured
text), and the requests issued so far. -/
structure CoachState where
  pending : Option (Nat × String)
  sent : List String
deriving Repr

/-- Fire the pending coaching timer if it is due at time `t`. -/
def coachFire (st : CoachState) (t : Nat) : CoachState :=
  match st.pending with
  | some (tf, s) =>
      if tf ≤ t then { pending := none, sent := st.sent ++ [jsTrim s] }
      else st
  | none => st

/-- Process one text-change event: fire a timer already due, then cancel
the pending timer and arm a new one when the trimmed text is long
enough. -/
def coachStep (st : CoachState) (ev : Nat × String) : CoachState :=
  let st1 := coachFire st ev.1
  if (jsTrim ev.2).length < 10 then { st1 with pending := none }
  else { st1 with pending := some (ev.1 + 2000, ev.2) }

/-- Run a timeline of text-change events from the idle state and let the
last armed timer (if any) elapse; returns the coaching requests issued, in
order. -/
def coachRun (events : List (Nat × String)) : List String :=
  let final := events.foldl coachStep { pending := none, sent := [] }
  match final.pending with
  | some (_, s) => final.sent ++ [jsTrim s]
  | none => final.sent

/-! ## Suggestion endpoint post-processing
(`src/app/api/suggestions/route.ts`) -/

/-- The replace of the bullet regex: when the first character is a dash,
bullet or asterisk, drop it together with the whitespace that follows. -/
def stripBulletChars : List Char → List Char
  | [] => []
  | c :: rest =>
      if c = '-' ∨ c = '•' ∨ c = '*' then rest.dropWhile Char.isWhitespace
      else c :: rest

/-- The replace of the numbering regex: when the line starts with one or
more digits followed by a dot or closing parenthesis, drop them together
with the whitespace that follows. -/
def stripNumberChars (l : List Char) : List Char :=
  let ds := l.takeWhile Char.isDigit
  let rest := l.dropWhile Char.isDigit
  if ds.isEmpty then l
  else
    match rest with
    | c :: r2 =>
        if c = '.' ∨ c = ')' then r2.dropWhile Char.isWhitespace else l
    | [] => l

/-- Post-processing of the raw completion text in the suggestions
endpoint: split on line breaks, trim each line, drop the lines that are
empty after trimming, then strip a leading bullet and a leading numbering
from each remaining line (in that order, as the two chained replaces
do). -/
def postProcessSuggestions (responseText : String) : List String :=
  (((jsSplitLines responseText).map jsTrim).filter (fun l => l ≠ "")).map
    (fun l => ⟨stripNumberChars (stripBulletChars l.data)⟩)

/-! ## Concrete instances used by counterexamples and witnesses -/

/-- A page state with empty collections and the id counter at 10. -/
def baseState : PageState :=
  { nextId := 10, newObservation := "", observations := [], harms := [],
    criteria := [], strategies := [], storeObservations := [], storeHarms := [],
    storeCriteria := [], storeStrategies := [], harmSuggestions := [],
    criterionSuggestions := [], strategySuggestions := [], customHarmInputs := [],
    customCriterionInputs := [], customStrategyInputs := [], errorMessage := none }

/-- Does an operation list touch the projects collection with an update. -/
def touchesProjectsColl (ops : List StoreOp) : Bool :=
  ops.any (fun op => match op with
    | .updateDoc coll _ => coll = "projects"
    | _ => false)

/-- The ordering relation asserted by the sort-order claim: ascending
sort-order first, ties broken by ascending creation time, falling back to
creation time when a record carries no sort-order. -/
def claimSortOrderLE (a b : Observation) : Bool :=
  match a.order, b.order with
  | some x, some y => x < y ∨ (x = y ∧ a.createdAt ≤ b.createdAt)
  | _, _ => a.createdAt ≤ b.createdAt

/-- Observation created first but carrying the larger sort-order. -/
def lateOrderObs : Observation :=
  { id := 1, projectId := 1, content := "first created", order := some 5, createdAt := 0 }

/-- Observation created second but carrying the smaller sort-order. -/
def earlyOrderObs : Observation :=
  { id := 2, projectId := 1, content := "second created", order := some 1, createdAt := 1 }

/-- Store holding the two observations above, both with explicit
sort-orders that disagree with creation order. -/
def orderDemoStore : Store :=
  { projects := [], observations := [lateOrderObs, earlyOrderObs],
    harms := [], criteria := [], strategies := [] }

/-- The observation of the Kitchen Study scenario. -/
def kitchenObs : Observation :=
  { id := 1, projectId := 1,
    content := "User opened three cabinets while cooking", createdAt := 0 }

/-- The harm of the Kitchen Study scenario. -/
def kitchenHarm : Harm :=
  { id := 2, projectId := 1, observationIds := [1],
    content := "Time wasted searching for ingredients", createdAt := 1 }

/-- The criterion of the Kitchen Study scenario. -/
def kitchenCriterion : Criterion :=
  { id := 3, projectId := 1, harmId := 2,
    content := "The solution should make ingredient location obvious" }

/-- The strategy of the Kitchen Study scenario. -/
def kitchenStrategy : Strategy :=
  { id := 4, projectId := 1, criterionId := 3,
    content := "HMW label storage by frequency of use" }

/-- A harm that already exists under observation 5 with the same content a
suggestion will carry. -/
def preHarm : Harm :=
  { id := 0, projectId := 1, observationIds := [5],
    content := "duplicate content", createdAt := 0 }

/-- Page state for the toggle round-trip witness: one persisted harm under
observation 5 whose content coincides with the cached, unselected
suggestion 7. -/
def toggleDemoState : PageState :=
  { baseState with
    harms := [preHarm]
    storeHarms := [preHarm]
    harmSuggestions := [(5, [{ id := 7, content := "duplicate content", selected := false }])] }

/-- Branch-witness observation with explicit order 2, created first. -/
def branchObsA : Observation :=
  { id := 3, projectId := 1, content := "branch source", order := some 2, createdAt := 0 }

/-- Branch-witness observation with explicit order 3, created second. -/
def branchObsB : Observation :=
  { id := 4, projectId := 1, content := "branch next", order := some 3, createdAt := 1 }

/-- Page state for the branch witness: two observations with orders 2 and
3. -/
def branchDemoState : PageState :=
  { baseState with
    observations := [branchObsA, branchObsB]
    storeObservations := [branchObsA, branchObsB] }

/-- Branch counterexample observation with order 1. -/
def floatObsA : Observation :=
  { id := 21, projectId := 1, content := "float source", order := some 1, createdAt := 0 }

/-- Branch counterexample observation whose order is the double adjacent
to 1: the two orders arise after about fifty repeated duplicates of the
same card have halved the gap to ulp scale. -/
def floatObsB : Observation :=
  { id := 22, projectId := 1, content := "float next",
    order := some (1 + 1 / 2 ^ 52), createdAt := 1 }

/-- Page state for the branch counterexample: two observations whose
orders are adjacent binary64 doubles. -/
def floatDemoState : PageState :=
  { baseState with
    observations := [floatObsA, floatObsB]
    storeObservations := [floatObsA, floatObsB] }

/-- Page state for the local-only witness: a typed observation waiting to
be added, no store. -/
def localDemoState : PageState :=
  { baseState with newObservation := "  saw the user hesitate  " }

/-- The trailing-blank shape of a matrix row: once a column is blank every
later column is blank too (a branch that terminated early). -/
def rowTrailingBlank (r : List String) : Prop :=
  (r.getD 1 "" = "" → r.getD 2 "" = "" ∧ r.getD 3 "" = "") ∧
  (r.getD 2 "" = "" → r.getD 3 "" = "")

/-! ## Claim C3: parent-project timestamp refresh -/

/-- C3 counterexample: `deleteObservation` issues exactly one operation,
the delete of the observation document, and in particular no update of any
project document — so deleting a child entity does not refresh the parent
project's last-updated timestamp, contrary to the claim. -/
theorem C3_counterexample_delete_no_refresh :
    deleteObservationOps 5 = [StoreOp.deleteDoc "observations" 5] ∧
    touchesProjectsColl (deleteObservationOps 5) = false := by
  constructor
  · rfl
  · decide

/-- C3 amended: every create of a child entity (and, per the spec-modelled
child update wrappers, every child update) additionally issues an update
on the parent project that refreshes its timestamp, but the deletes of
child entities issue no project update at all. -/
theorem C3_create_refreshes_delete_does_not :
    ∀ projectId docId : Nat,
      StoreOp.updateDoc "projects" projectId ∈ createObservationOps projectId docId ∧
      StoreOp.updateDoc "projects" projectId ∈ createHarmOps projectId docId ∧
      StoreOp.updateDoc "projects" projectId ∈ createCriterionOps projectId docId ∧
      StoreOp.updateDoc "projects" projectId ∈ createStrategyOps projectId docId ∧
      StoreOp.updateDoc "projects" projectId ∈ updateObservationOps projectId docId ∧
      StoreOp.updateDoc "projects" projectId ∈ updateHarmOps projectId docId ∧
      StoreOp.updateDoc "projects" projectId ∈ updateCriterionOps projectId docId ∧
      StoreOp.updateDoc "projects" projectId ∈ updateStrategyOps projectId docId ∧
      touchesProjectsColl (deleteObservationOps docId) = false ∧
      touchesProjectsColl (deleteHarmOps docId) = false ∧
      touchesProjectsColl (deleteCriterionOps docId) = false ∧
      touchesProjectsColl (deleteStrategyOps docId) = false := by
  intro projectId docId
  refine ⟨?_, ?_, ?_, ?_, ?_, ?_, ?_, ?_, ?_, ?_, ?_, ?_⟩ <;>
    simp [createObservationOps, createHarmOps, createCriterionOps,
      createStrategyOps, updateObservationOps, updateHarmOps,
      updateCriterionOps, updateStrategyOps, updateProjectOps,
      deleteObservationOps, deleteHarmOps, deleteCriterionOps,
      deleteStrategyOps, touchesProjectsColl]

/-! ## Claim C10: child deletes do not cascade, project delete does -/

/-- C10: deleting a single observation, harm or criterion removes only
that entity — descendant collections are untouched both in memory and in
the store mirror, and the only store operation possibly issued is the
delete of the entity's own document — whereas `deleteProject` cascades to
every project-scoped child of all four kinds before removing the project
record. -/
theorem C10_delete_frame_and_project_cascade :
    (∀ (db storeOk : Bool) (st : PageState) (obsId : Nat),
      (handleDeleteObservation db storeOk st obsId).1.harms = st.harms ∧
      (handleDeleteObservation db storeOk st obsId).1.criteria = st.criteria ∧
      (handleDeleteObservation db storeOk st obsId).1.strategies = st.strategies ∧
      (handleDeleteObservation db storeOk st obsId).1.storeHarms = st.storeHarms ∧
      (handleDeleteObservation db storeOk st obsId).1.storeCriteria = st.storeCriteria ∧
      (handleDeleteObservation db storeOk st obsId).1.storeStrategies = st.storeStrategies ∧
      ∀ op ∈ (handleDeleteObservation db storeOk st obsId).2,
        op = StoreOp.deleteDoc "observations" obsId) ∧
    (∀ (db storeOk : Bool) (st : PageState) (harmId : Nat),
      (handleDeleteHarm db storeOk st harmId).1.observations = st.observations ∧
      (handleDeleteHarm db storeOk st harmId).1.criteria = st.criteria ∧
      (handleDeleteHarm db storeOk st harmId).1.strategies = st.strategies ∧
      (handleDeleteHarm db storeOk st harmId).1.storeCriteria = st.storeCriteria ∧
      (handleDeleteHarm db storeOk st harmId).1.storeStrategies = st.storeStrategies ∧
      ∀ op ∈ (handleDeleteHarm db storeOk st harmId).2,
        op = StoreOp.deleteDoc "harms" harmId) ∧
    (∀ (db storeOk : Bool) (st : PageState) (criterionId : Nat),
      (handleDeleteCriterion db storeOk st criterionId).1.observations = st.observations ∧
      (handleDeleteCriterion db storeOk st criterionId).1.harms = st.harms ∧
      (handleDeleteCriterion db storeOk st criterionId).1.strategies = st.strategies ∧
      (handleDeleteCriterion db storeOk st criterionId).1.storeStrategies = st.storeStrategies ∧
      ∀ op ∈ (handleDeleteCriterion db storeOk st criterionId).2,
        op = StoreOp.deleteDoc "criteria" criterionId) ∧
    (∀ (s : Store) (projectId : Nat),
      (∀ o : Observation, o ∈ (deleteProjectStore s projectId).observations ↔
        o ∈ s.observations ∧ o.projectId ≠ projectId) ∧
      (∀ h : Harm, h ∈ (deleteProjectStore s projectId).harms ↔
        h ∈ s.harms ∧ h.projectId ≠ projectId) ∧
      (∀ c : Criterion, c ∈ (deleteProjectStore s projectId).criteria ↔
        c ∈ s.criteria ∧ c.projectId ≠ projectId) ∧
      (∀ x : Strategy, x ∈ (deleteProjectStore s projectId).strategies ↔
        x ∈ s.strategies ∧ x.projectId ≠ projectId) ∧
      (∀ p : Project, p ∈ (deleteProjectStore s projectId).projects ↔
        p ∈ s.projects ∧ p.id ≠ projectId)) := by
  refine ⟨?_, ?_, ?_, ?_⟩
  · intro db storeOk st obsId
    cases db <;> cases storeOk <;>
      simp [handleDeleteObservation, deleteObservationOps]
  · intro db storeOk st harmId
    cases db <;> cases storeOk <;>
      simp [handleDeleteHarm, deleteHarmOps]
  · intro db storeOk st criterionId
    cases db <;> cases storeOk <;>
      simp [handleDeleteCriterion, deleteCriterionOps]
  · intro s projectId
    refine ⟨?_, ?_, ?_, ?_, ?_⟩ <;> intro x <;>
      simp [deleteProjectStore, List.mem_filter]

/-! ## Claim C7: coaching debounce -/

/-- C7 counterexample: with the literal event sequence of the claim —
type a at time 0, then ab at time 1000, before any debounce interval can
elapse — the coaching loop sends no request at all, because both trimmed
texts are shorter than the 10-character minimum and therefore never arm a
timer; the claim asserts exactly one request, for ab. -/
theorem C7_counterexample_short_text_sends_nothing :
    coachRun [(0, "a"), (1000, "ab")] = [] ∧
    coachRun [(0, "a"), (1000, "ab")] ≠ ["ab"] := by
  constructor
  · decide
  · decide

/-- C7 amended: for texts long enough to pass the 10-character minimum,
typing a first text and then a second text before the first debounce
interval (2000 ms) elapses cancels the first timer, so exactly one
coaching request is sent, for the trimmed second text only. The literal
texts a and ab of the claim are below the minimum and send no request at
all. -/
theorem C7_debounce_cancels_first_timer (t1 t2 : String) (tau1 tau2 : Nat)
    (h1 : 10 ≤ (jsTrim t1).length) (h2 : 10 ≤ (jsTrim t2).length)
    (hlt : tau2 < tau1 + 2000) :
    coachRun [(tau1, t1), (tau2, t2)] = [jsTrim t2] := by
  have h1' : ¬ (jsTrim t1).length < 10 := Nat.not_lt.mpr h1
  have h2' : ¬ (jsTrim t2).length < 10 := Nat.not_lt.mpr h2
  have hlt' : ¬ tau1 + 2000 ≤ tau2 := Nat.not_le.mpr hlt
  simp [coachRun, coachStep, coachFire, h1', h2', hlt']

/-- C7 witness: two 14-character observations typed 1000 ms apart produce
exactly one coaching request, for the second text. -/
theorem C7_debounce_witness :
    10 ≤ (jsTrim "watched user A").length ∧
    10 ≤ (jsTrim "watched user AB").length ∧
    (1000 : Nat) < 0 + 2000 ∧
    coachRun [(0, "watched user A"), (1000, "watched user AB")]
      = [jsTrim "watched user AB"] :=
  ⟨by decide, by decide, by decide,
    C7_debounce_cancels_first_timer "watched user A" "watched user AB" 0 1000
      (by decide) (by decide) (by decide)⟩

/-! ## Claim C8: suggestion post-processing -/

/-- Helper for the post-processing claim: trimming, dropping blanks and
then mapping a strip function is the same as handling each split line
independently with a `filterMap`, preserving order. -/
theorem trim_filter_map_eq_filterMap (g : String → String) (L : List String) :
    ((L.map jsTrim).filter (fun l => l ≠ "")).map g
      = L.filterMap (fun l => if jsTrim l = "" then none else some (g (jsTrim l))) := by
  induction L with
  | nil => rfl
  | cons a t ih =>
    by_cases h : jsTrim a = "" <;>
      · simp [List.filter_cons, h]
        simpa using ih

/-- C8 amended: the endpoint post-processes the raw completion text by
splitting on line breaks, trimming each line, dropping the lines that are
blank after trimming and stripping a leading bullet and then a leading
numbering from each survivor, handling lines independently and in order;
it does not deduplicate, so the result can contain duplicate strings
within a single call (second conjunct). -/
theorem C8_postprocess_line_pipeline :
    (∀ s : String,
      postProcessSuggestions s
        = (jsSplitLines s).filterMap (fun l =>
            if jsTrim l = "" then none
            else some ⟨stripNumberChars (stripBulletChars (jsTrim l).data)⟩)) ∧
    postProcessSuggestions "- foo\n1. foo" = ["foo", "foo"] := by
  constructor
  · intro s
    simpa [postProcessSuggestions] using
      trim_filter_map_eq_filterMap
        (fun l => ⟨stripNumberChars (stripBulletChars l.data)⟩) (jsSplitLines s)
  · decide

/-- C8 counterexample: a bulleted and a numbered line with the same payload
normalise to the same string, so a single call returns a duplicate — the
output sequence is not duplicate-free as the claim asserts. -/
theorem C8_counterexample_duplicates_within_call :
    ¬ (postProcessSuggestions "- foo\n1. foo").Nodup := by
  decide

/-! ## Claim C4: listing order of observations -/

/-- C4 counterexample: in a project whose two observations both carry an
explicit sort-order that disagrees with creation order, `getObservations`
returns them in creation order — the first returned pair violates the
claimed sort-order-takes-precedence relation, so the order field is
ignored by the listing. -/
theorem C4_counterexample_order_field_ignored :
    (orderDemoStore.observations.all (fun o => o.order.isSome)) = true ∧
    getObservations orderDemoStore 1 = [lateOrderObs, earlyOrderObs] ∧
    claimSortOrderLE lateOrderObs earlyOrderObs = false := by
  refine ⟨by decide, ?_, by decide⟩
  simp [getObservations, orderDemoStore, List.mergeSort, lateOrderObs, earlyOrderObs]

/-- C4 amended: listing observations (and harms) of a project returns
exactly the project-scoped records, ordered by ascending creation time —
a stable client-side sort; the fractional sort-order field is not
consulted by the listing. -/
theorem C4_listing_sorted_by_creation_time :
    ∀ (s : Store) (projectId : Nat),
      (getObservations s projectId).Pairwise (fun a b => a.createdAt ≤ b.createdAt) ∧
      (getObservations s projectId).Perm
        (s.observations.filter (fun o => o.projectId = projectId)) ∧
      (getHarms s projectId).Pairwise (fun a b => a.createdAt ≤ b.createdAt) ∧
      (getHarms s projectId).Perm
        (s.harms.filter (fun h => h.projectId = projectId)) := by
  intro s projectId
  refine ⟨?_, ?_, ?_, ?_⟩
  · have h : List.Pairwise
        (fun a b : Observation => (decide (a.createdAt ≤ b.createdAt)) = true)
        (getObservations s projectId) := by
      simp only [getObservations]
      apply List.sorted_mergeSort
      · intro a b c hab hbc
        simp only [decide_eq_true_eq] at hab hbc ⊢
        omega
      · intro a b
        simp [Nat.le_total]
    simpa using h
  · simp only [getObservations]
    exact List.mergeSort_perm _ _
  · have h : List.Pairwise
        (fun a b : Harm => (decide (a.createdAt ≤ b.createdAt)) = true)
        (getHarms s projectId) := by
      simp only [getHarms]
      apply List.sorted_mergeSort
      · intro a b c hab hbc
        simp only [decide_eq_true_eq] at hab hbc ⊢
        omega
      · intro a b
        simp [Nat.le_total]
    simpa using h
  · simp only [getHarms]
    exact List.mergeSort_perm _ _

/-! ## Claim C5: branch/duplicate insertion

Helper lemmas about the binary64 rounding model, then the claim. -/

/-- The fuel-driven logarithm agrees with `Nat.log2` when given enough
fuel. -/
theorem log2Fuel_eq_log2 : ∀ (fuel n : Nat), n ≤ fuel → log2Fuel fuel n = Nat.log2 n := by
  intro fuel
  induction fuel with
  | zero =>
    intro n h
    have hn : n = 0 := Nat.le_zero.mp h
    subst hn
    rw [Nat.log2]
    simp [log2Fuel]
  | succ f ih =>
    intro n h
    rw [log2Fuel, Nat.log2]
    by_cases h2 : 2 ≤ n
    · rw [if_pos h2, if_pos h2, ih (n / 2) (by omega)]
    · rw [if_neg h2, if_neg h2]

/-- Specification of `natLog2` on positive numbers. -/
theorem natLog2_spec (n : Nat) (hn : n ≠ 0) :
    2 ^ natLog2 n ≤ n ∧ n < 2 ^ (natLog2 n + 1) := by
  rw [natLog2, log2Fuel_eq_log2 n n le_rfl]
  exact ⟨Nat.log2_self_le hn, Nat.lt_log2_self⟩

/-- The binade exponent brackets the absolute value:
`2 ^ k ≤ |x| < 2 ^ (k + 1)`. -/
theorem ratBinadeExp_spec (x : ℚ) (hx : x ≠ 0) :
    (2 : ℚ) ^ ratBinadeExp x ≤ |x| ∧ |x| < (2 : ℚ) ^ (ratBinadeExp x + 1) := by
  have hnum : x.num ≠ 0 := Rat.num_ne_zero.mpr hx
  have hp : x.num.natAbs ≠ 0 := Int.natAbs_ne_zero.mpr hnum
  have hq : x.den ≠ 0 := x.den_nz
  have hden : (0 : ℚ) < (x.den : ℚ) := by
    exact_mod_cast Nat.pos_of_ne_zero hq
  obtain ⟨hA1, hA2⟩ := natLog2_spec x.num.natAbs hp
  obtain ⟨hB1, hB2⟩ := natLog2_spec x.den hq
  have habs : |x| = (x.num.natAbs : ℚ) / (x.den : ℚ) := by
    conv_lhs => rw [← Rat.num_div_den x]
    rw [abs_div, abs_of_pos hden, Int.cast_natAbs, Int.cast_abs]
  have hcastA1 : (2 : ℚ) ^ ((natLog2 x.num.natAbs : ℤ)) ≤ (x.num.natAbs : ℚ) := by
    rw [zpow_natCast]
    exact_mod_cast hA1
  have hcastA2 : (x.num.natAbs : ℚ) < (2 : ℚ) ^ ((natLog2 x.num.natAbs : ℤ) + 1) := by
    have : ((natLog2 x.num.natAbs : ℤ) + 1) = ((natLog2 x.num.natAbs + 1 : ℕ) : ℤ) := by
      push_cast
      ring
    rw [this, zpow_natCast]
    exact_mod_cast hA2
  have hcastB1 : (2 : ℚ) ^ ((natLog2 x.den : ℤ)) ≤ (x.den : ℚ) := by
    rw [zpow_natCast]
    exact_mod_cast hB1
  have hcastB2 : (x.den : ℚ) < (2 : ℚ) ^ ((natLog2 x.den : ℤ) + 1) := by
    have : ((natLog2 x.den : ℤ) + 1) = ((natLog2 x.den + 1 : ℕ) : ℤ) := by
      push_cast
      ring
    rw [this, zpow_natCast]
    exact_mod_cast hB2
  set A : ℤ := (natLog2 x.num.natAbs : ℤ) with hA
  set B : ℤ := (natLog2 x.den : ℤ) with hB
  have hub : |x| < (2 : ℚ) ^ (A - B + 1) := by
    rw [habs, div_lt_iff hden]
    calc (x.num.natAbs : ℚ) < 2 ^ (A + 1) := hcastA2
      _ = 2 ^ (A - B + 1) * 2 ^ B := by
          rw [← zpow_add₀ (two_ne_zero : (2:ℚ) ≠ 0)]
          congr 1
          ring
      _ ≤ 2 ^ (A - B + 1) * (x.den : ℚ) := by
          have h2 : (0 : ℚ) < 2 ^ (A - B + 1) := zpow_pos (by norm_num) _
          exact mul_le_mul_of_nonneg_left hcastB1 (le_of_lt h2)
  have hlb : (2 : ℚ) ^ (A - B - 1) < |x| := by
    rw [habs, lt_div_iff hden]
    calc (2 : ℚ) ^ (A - B - 1) * (x.den : ℚ)
        < 2 ^ (A - B - 1) * 2 ^ (B + 1) := by
          have h2 : (0 : ℚ) < 2 ^ (A - B - 1) := zpow_pos (by norm_num) _
          exact mul_lt_mul_of_pos_left hcastB2 h2
      _ = 2 ^ A := by
          rw [← zpow_add₀ (two_ne_zero : (2:ℚ) ≠ 0)]
          congr 1
          ring
      _ ≤ (x.num.natAbs : ℚ) := hcastA1
  rw [ratBinadeExp]
  by_cases hcase : (2 : ℚ) ^ (A - B) ≤ |x|
  · rw [if_pos hcase]
    exact ⟨hcase, hub⟩
  · rw [if_neg hcase]
    constructor
    · exact le_of_lt hlb
    · have : A - B - 1 + 1 = A - B := by ring
      rw [this]
      exact lt_of_not_ge fun h => hcase h

/-- The binade exponent is determined by its bracketing property. -/
theorem ratBinadeExp_eq (x : ℚ) (k : ℤ) (hx : x ≠ 0)
    (h1 : (2 : ℚ) ^ k ≤ |x|) (h2 : |x| < (2 : ℚ) ^ (k + 1)) :
    ratBinadeExp x = k := by
  obtain ⟨hs1, hs2⟩ := ratBinadeExp_spec x hx
  by_contra hne
  rcases lt_or_gt_of_ne hne with hlt | hgt
  · have hle : ratBinadeExp x + 1 ≤ k := hlt
    have : (2 : ℚ) ^ (ratBinadeExp x + 1) ≤ 2 ^ k :=
      zpow_le_zpow_right₀ (by norm_num) hle
    exact absurd (lt_of_lt_of_le hs2 (le_trans this h1)) (lt_irrefl _)
  · have hle : k + 1 ≤ ratBinadeExp x := hgt
    have : (2 : ℚ) ^ (k + 1) ≤ 2 ^ ratBinadeExp x :=
      zpow_le_zpow_right₀ (by norm_num) hle
    exact absurd (lt_of_lt_of_le h2 (le_trans this hs1)) (lt_irrefl _)

/-- Rounding an integer to the nearest integer is the identity. -/
theorem rneInt_intCast (n : ℤ) : rneInt (n : ℚ) = n := by
  simp [rneInt, Int.floor_intCast]

/-- The nearest integer is within one half of the argument. -/
theorem rneInt_bounds (y : ℚ) :
    y - 1 / 2 ≤ (rneInt y : ℚ) ∧ (rneInt y : ℚ) ≤ y + 1 / 2 := by
  have hf1 : (⌊y⌋ : ℚ) ≤ y := Int.floor_le y
  have hf2 : y < ⌊y⌋ + 1 := Int.lt_floor_add_one y
  simp only [rneInt]
  split_ifs with h1 h2 h3 <;> constructor <;> push_cast <;> linarith

/-- Round-to-nearest, ties-to-even is monotone. -/
theorem rneInt_mono {y z : ℚ} (h : y ≤ z) : rneInt y ≤ rneInt z := by
  have hfyz : ⌊y⌋ ≤ ⌊z⌋ := Int.floor_le_floor h
  rcases lt_or_eq_of_le hfyz with hlt | heq
  · have h1 : rneInt y ≤ ⌊y⌋ + 1 := by
      simp only [rneInt]
      split_ifs <;> omega
    have h2 : ⌊z⌋ ≤ rneInt z := by
      simp only [rneInt]
      split_ifs <;> omega
    omega
  · have hr : y - (⌊y⌋ : ℚ) ≤ z - (⌊y⌋ : ℚ) := by linarith
    simp only [rneInt, ← heq]
    split_ifs <;> first | omega | (exfalso; linarith)

/-- Rounding maps zero to zero. -/
theorem roundB64_zero : roundB64 0 = 0 := by
  rw [roundB64, if_pos rfl]

/-- Every representable rational rounds to itself. -/
theorem roundB64_eq_self {x : ℚ} (hx : isRepresentable x) : roundB64 x = x := by
  by_cases h0 : x = 0
  · rw [h0, roundB64_zero]
  · obtain ⟨m, e, hxe, hm⟩ := hx
    have hmne : m ≠ 0 := by
      rintro rfl
      rw [hxe] at h0
      simp at h0
    have hepos : (0 : ℚ) < 2 ^ e := zpow_pos (by norm_num) e
    obtain ⟨hs1, _⟩ := ratBinadeExp_spec x h0
    set k := ratBinadeExp x with hk
    have habs : |x| = (m.natAbs : ℚ) * 2 ^ e := by
      rw [hxe, abs_mul, abs_of_pos hepos, Int.cast_natAbs, Int.cast_abs]
    have hlt : |x| < 2 ^ (53 + e) := by
      rw [habs]
      calc (m.natAbs : ℚ) * 2 ^ e < 2 ^ 53 * 2 ^ e := by
            have hmq : (m.natAbs : ℚ) < 2 ^ 53 := by exact_mod_cast hm
            exact mul_lt_mul_of_pos_right hmq hepos
        _ = 2 ^ ((53 : ℤ) + e) := by
            rw [zpow_add₀ (two_ne_zero : (2:ℚ) ≠ 0)]
            norm_num
    have hk53 : k < 53 + e := by
      by_contra hcon
      push_neg at hcon
      have h2 : (2 : ℚ) ^ ((53 : ℤ) + e) ≤ 2 ^ k :=
        zpow_le_zpow_right₀ (by norm_num) hcon
      linarith [lt_of_lt_of_le hlt (le_trans h2 hs1)]
    have hee : 0 ≤ e - (k - 52) := by omega
    have hcollapse : (2 : ℚ) ^ ((e - (k - 52)).toNat : ℕ) * 2 ^ (k - 52) = 2 ^ e := by
      rw [← zpow_natCast (2 : ℚ) ((e - (k - 52)).toNat),
        ← zpow_add₀ (two_ne_zero : (2:ℚ) ≠ 0), Int.toNat_of_nonneg hee]
      congr 1
      ring
    have hdiv : x / 2 ^ (k - 52) = ((m * 2 ^ (e - (k - 52)).toNat : ℤ) : ℚ) := by
      rw [div_eq_iff (ne_of_gt (zpow_pos (by norm_num) _)), hxe]
      push_cast
      rw [mul_assoc, hcollapse]
    rw [roundB64, if_neg h0, ← hk]
    show (rneInt (x / 2 ^ (k - 52)) : ℚ) * 2 ^ (k - 52) = x
    rw [hdiv, rneInt_intCast]
    push_cast
    rw [mul_assoc, hcollapse, ← hxe]

/-- A positive rational rounds into its own binade:
`2 ^ k ≤ roundB64 x ≤ 2 ^ (k + 1)` for `k` the binade exponent. -/
theorem roundB64_bounds_pos (x : ℚ) (hx : 0 < x) :
    (2 : ℚ) ^ ratBinadeExp x ≤ roundB64 x ∧
      roundB64 x ≤ (2 : ℚ) ^ (ratBinadeExp x + 1) := by
  have h0 : x ≠ 0 := ne_of_gt hx
  obtain ⟨hs1, hs2⟩ := ratBinadeExp_spec x h0
  rw [abs_of_pos hx] at hs1 hs2
  set k := ratBinadeExp x with hk
  have hepos : (0 : ℚ) < 2 ^ (k - 52) := zpow_pos (by norm_num) _
  set y := x / 2 ^ (k - 52) with hy
  have hy1 : (2 : ℚ) ^ (52 : ℕ) ≤ y := by
    rw [hy, le_div_iff₀ hepos, ← zpow_natCast (2 : ℚ) 52,
      ← zpow_add₀ (two_ne_zero : (2:ℚ) ≠ 0)]
    have hexp : ((52 : ℕ) : ℤ) + (k - 52) = k := by push_cast; ring
    rw [hexp]
    exact hs1
  have hy2 : y < (2 : ℚ) ^ (53 : ℕ) := by
    rw [hy, div_lt_iff₀ hepos, ← zpow_natCast (2 : ℚ) 53,
      ← zpow_add₀ (two_ne_zero : (2:ℚ) ≠ 0)]
    have hexp : ((53 : ℕ) : ℤ) + (k - 52) = k + 1 := by push_cast; ring
    rw [hexp]
    exact hs2
  obtain ⟨hb1, hb2⟩ := rneInt_bounds y
  have hn1 : (2 : ℤ) ^ (52 : ℕ) ≤ rneInt y := by
    by_contra hcon
    push_neg at hcon
    have h1 : rneInt y + 1 ≤ 2 ^ 52 := hcon
    have h2 : (rneInt y : ℚ) + 1 ≤ 2 ^ (52 : ℕ) := by exact_mod_cast h1
    linarith
  have hn2 : rneInt y ≤ (2 : ℤ) ^ (53 : ℕ) := by
    by_contra hcon
    push_neg at hcon
    have h1 : (2 : ℤ) ^ 53 + 1 ≤ rneInt y := hcon
    have h2 : (2 : ℚ) ^ (53 : ℕ) + 1 ≤ (rneInt y : ℚ) := by exact_mod_cast h1
    linarith
  have hval : roundB64 x = (rneInt y : ℚ) * 2 ^ (k - 52) := by
    rw [roundB64, if_neg h0, ← hk]
  rw [hval]
  constructor
  · calc (2 : ℚ) ^ k = 2 ^ (52 : ℕ) * 2 ^ (k - 52) := by
          rw [← zpow_natCast (2 : ℚ) 52, ← zpow_add₀ (two_ne_zero : (2:ℚ) ≠ 0)]
          congr 1
          push_cast
          ring
      _ ≤ (rneInt y : ℚ) * 2 ^ (k - 52) := by
          have h1 : ((2 : ℚ) ^ (52 : ℕ)) ≤ (rneInt y : ℚ) := by exact_mod_cast hn1
          exact mul_le_mul_of_nonneg_right h1 (le_of_lt hepos)
  · calc (rneInt y : ℚ) * 2 ^ (k - 52) ≤ 2 ^ (53 : ℕ) * 2 ^ (k - 52) := by
          have h1 : (rneInt y : ℚ) ≤ ((2 : ℚ) ^ (53 : ℕ)) := by exact_mod_cast hn2
          exact mul_le_mul_of_nonneg_right h1 (le_of_lt hepos)
      _ = 2 ^ (k + 1) := by
          rw [← zpow_natCast (2 : ℚ) 53, ← zpow_add₀ (two_ne_zero : (2:ℚ) ≠ 0)]
          congr 1
          push_cast
          ring

/-- Rounding preserves non-negativity. -/
theorem roundB64_nonneg {x : ℚ} (hx : 0 ≤ x) : 0 ≤ roundB64 x := by
  rcases eq_or_lt_of_le hx with h | h
  · rw [← h, roundB64_zero]
  · have h1 := (roundB64_bounds_pos x h).1
    have hp : (0 : ℚ) < 2 ^ ratBinadeExp x := zpow_pos (by norm_num) _
    linarith

/-- Rounding is monotone on the non-negative rationals. -/
theorem roundB64_mono_of_nonneg {x y : ℚ} (hx : 0 ≤ x) (hxy : x ≤ y) :
    roundB64 x ≤ roundB64 y := by
  rcases eq_or_lt_of_le hx with h | hxpos
  · rw [← h, roundB64_zero]
    exact roundB64_nonneg (le_trans hx hxy)
  · have hypos : 0 < y := lt_of_lt_of_le hxpos hxy
    have hx0 : x ≠ 0 := ne_of_gt hxpos
    have hy0 : y ≠ 0 := ne_of_gt hypos
    obtain ⟨hxs1, hxs2⟩ := ratBinadeExp_spec x hx0
    obtain ⟨hys1, hys2⟩ := ratBinadeExp_spec y hy0
    rw [abs_of_pos hxpos] at hxs1 hxs2
    rw [abs_of_pos hypos] at hys1 hys2
    have hkk : ratBinadeExp x ≤ ratBinadeExp y := by
      by_contra hcon
      push_neg at hcon
      have h2 : (2 : ℚ) ^ (ratBinadeExp y + 1) ≤ 2 ^ ratBinadeExp x :=
        zpow_le_zpow_right₀ (by norm_num) hcon
      linarith
    rcases eq_or_lt_of_le hkk with heq | hlt
    · rw [roundB64, if_neg hx0, roundB64, if_neg hy0, ← heq]
      show (rneInt (x / 2 ^ (ratBinadeExp x - 52)) : ℚ) * 2 ^ (ratBinadeExp x - 52)
        ≤ (rneInt (y / 2 ^ (ratBinadeExp x - 52)) : ℚ) * 2 ^ (ratBinadeExp x - 52)
      have hepos : (0 : ℚ) < 2 ^ (ratBinadeExp x - 52) := zpow_pos (by norm_num) _
      have hmono : rneInt (x / 2 ^ (ratBinadeExp x - 52))
          ≤ rneInt (y / 2 ^ (ratBinadeExp x - 52)) :=
        rneInt_mono (by gcongr)
      exact mul_le_mul_of_nonneg_right (by exact_mod_cast hmono) (le_of_lt hepos)
    · have h1 := (roundB64_bounds_pos x hxpos).2
      have h2 := (roundB64_bounds_pos y hypos).1
      have h3 : (2 : ℚ) ^ (ratBinadeExp x + 1) ≤ 2 ^ ratBinadeExp y :=
        zpow_le_zpow_right₀ (by norm_num) (by omega)
      linarith

/-- The result of rounding is always representable: at most 53 significant
bits (a boundary value `±2 ^ 53` renormalises into the next binade). -/
theorem roundB64_representable (x : ℚ) : isRepresentable (roundB64 x) := by
  by_cases h0 : x = 0
  · rw [h0, roundB64_zero]
    exact ⟨0, 0, by norm_num, by norm_num⟩
  · obtain ⟨_, hs2⟩ := ratBinadeExp_spec x h0
    set k := ratBinadeExp x with hk
    have hepos : (0 : ℚ) < 2 ^ (k - 52) := zpow_pos (by norm_num) _
    set y := x / 2 ^ (k - 52) with hy
    have hyabs : |y| < (2 : ℚ) ^ (53 : ℕ) := by
      rw [hy, abs_div, abs_of_pos hepos, div_lt_iff₀ hepos,
        ← zpow_natCast (2 : ℚ) 53, ← zpow_add₀ (two_ne_zero : (2:ℚ) ≠ 0)]
      have hexp : ((53 : ℕ) : ℤ) + (k - 52) = k + 1 := by push_cast; ring
      rw [hexp]
      exact hs2
    obtain ⟨hb1, hb2⟩ := rneInt_bounds y
    obtain ⟨hy1, hy2⟩ := abs_lt.mp hyabs
    have hnle : rneInt y ≤ (2 : ℤ) ^ (53 : ℕ) := by
      by_contra hcon
      push_neg at hcon
      have h1 : (2 : ℤ) ^ 53 + 1 ≤ rneInt y := hcon
      have h2 : (2 : ℚ) ^ (53 : ℕ) + 1 ≤ (rneInt y : ℚ) := by exact_mod_cast h1
      linarith
    have hnge : -(2 : ℤ) ^ (53 : ℕ) ≤ rneInt y := by
      by_contra hcon
      push_neg at hcon
      have h1 : rneInt y + 1 ≤ -(2 : ℤ) ^ 53 := hcon
      have h2 : (rneInt y : ℚ) + 1 ≤ -((2 : ℚ) ^ (53 : ℕ)) := by exact_mod_cast h1
      linarith
    have hval : roundB64 x = (rneInt y : ℚ) * 2 ^ (k - 52) := by
      rw [roundB64, if_neg h0, ← hk]
    rw [hval]
    by_cases hlt : (rneInt y).natAbs < 2 ^ 53
    · exact ⟨rneInt y, k - 52, rfl, hlt⟩
    · have hnle' := hnle
      have hnge' := hnge
      have hlt' := hlt
      norm_num at hnle' hnge' hlt'
      have hor : rneInt y = 9007199254740992 ∨ rneInt y = -9007199254740992 := by
        omega
      have hstep : (2 : ℚ) ^ (k - 51) = 2 ^ (k - 52) * 2 := by
        rw [← zpow_add_one₀ (two_ne_zero : (2:ℚ) ≠ 0)]
        congr 1
        ring
      rcases hor with h | h
      · refine ⟨2 ^ 52, k - 51, ?_, by norm_num⟩
        rw [h, hstep]
        push_cast
        ring
      · refine ⟨-(2 ^ 52), k - 51, ?_, by norm_num⟩
        rw [h, hstep]
        push_cast
        ring

/-- Doubling preserves representability. -/
theorem isRepresentable_two_mul {x : ℚ} (hx : isRepresentable x) :
    isRepresentable (2 * x) := by
  obtain ⟨m, e, hxe, hm⟩ := hx
  refine ⟨m, e + 1, ?_, hm⟩
  rw [hxe, zpow_add₀ (two_ne_zero : (2:ℚ) ≠ 0), zpow_one]
  ring

/-- Halving preserves representability. -/
theorem isRepresentable_half {x : ℚ} (hx : isRepresentable x) :
    isRepresentable (x / 2) := by
  obtain ⟨m, e, hxe, hm⟩ := hx
  refine ⟨m, e - 1, ?_, hm⟩
  rw [hxe, zpow_sub₀ (two_ne_zero : (2:ℚ) ≠ 0), zpow_one]
  ring

/-- Halving a representable double is exact. -/
theorem halfB64_eq_of_representable {a : ℚ} (ha : isRepresentable a) :
    halfB64 a = a / 2 := by
  rw [halfB64, roundB64_eq_self (isRepresentable_half ha)]

/-- The float midpoint of two non-negative representable doubles lies
between them (non-strictly: it can collapse onto an endpoint). -/
theorem b64_mid_between {a b : ℚ} (ha : isRepresentable a)
    (hb : isRepresentable b) (ha0 : 0 ≤ a) (hab : a ≤ b) :
    a ≤ halfB64 (addB64 a b) ∧ halfB64 (addB64 a b) ≤ b := by
  have hb0 : 0 ≤ b := le_trans ha0 hab
  have h2a : roundB64 (2 * a) = 2 * a := roundB64_eq_self (isRepresentable_two_mul ha)
  have h2b : roundB64 (2 * b) = 2 * b := roundB64_eq_self (isRepresentable_two_mul hb)
  have hlo : 2 * a ≤ addB64 a b := by
    rw [addB64, ← h2a]
    exact roundB64_mono_of_nonneg (by linarith) (by linarith)
  have hhi : addB64 a b ≤ 2 * b := by
    rw [addB64, ← h2b]
    exact roundB64_mono_of_nonneg (by linarith) (by linarith)
  have hrep : isRepresentable (addB64 a b) := by
    rw [addB64]
    exact roundB64_representable _
  rw [halfB64_eq_of_representable hrep]
  exact ⟨by linarith, by linarith⟩

/-- An even integer plus one half rounds down: the tie goes to the even
endpoint. -/
theorem rneInt_add_half_even (n : ℤ) (hn : n % 2 = 0) :
    rneInt ((n : ℚ) + 1 / 2) = n := by
  have hf : ⌊(n : ℚ) + 1 / 2⌋ = n := by
    rw [Int.floor_eq_iff]
    constructor
    · linarith
    · linarith
  simp only [rneInt, hf]
  rw [show ((n : ℚ) + 1 / 2 - (n : ℚ)) = 1 / 2 from by ring]
  rw [if_neg (by norm_num), if_neg (by norm_num), if_pos hn]

/-- The double sum `1 + (1 + 2 ^ (-52))` lands exactly on a tie and rounds
down to `2`: the odd candidate `2 + 2 ^ (-51)` loses to the even `2`. -/
theorem roundB64_two_add_ulp : roundB64 (2 + 1 / 2 ^ 52) = 2 := by
  have h0 : (2 + 1 / 2 ^ 52 : ℚ) ≠ 0 := by positivity
  have hk : ratBinadeExp (2 + 1 / 2 ^ 52) = 1 := by
    apply ratBinadeExp_eq _ _ h0
    · rw [abs_of_pos (by positivity), zpow_one]
      norm_num
    · rw [abs_of_pos (by positivity)]
      rw [show ((1 : ℤ) + 1) = ((2 : ℕ) : ℤ) from by norm_num, zpow_natCast]
      norm_num
  rw [roundB64, if_neg h0, hk]
  show (rneInt ((2 + 1 / 2 ^ 52 : ℚ) / 2 ^ ((1 : ℤ) - 52)) : ℚ) * 2 ^ ((1 : ℤ) - 52) = 2
  have he : ((1 : ℤ) - 52) = (-51 : ℤ) := by norm_num
  rw [he]
  have hdiv : (2 + 1 / 2 ^ 52 : ℚ) / 2 ^ (-51 : ℤ)
      = ((4503599627370496 : ℤ) : ℚ) + 1 / 2 := by
    rw [zpow_neg, div_eq_mul_inv, inv_inv, show ((51 : ℤ)) = ((51 : ℕ) : ℤ) from by norm_num,
      zpow_natCast]
    push_cast
    norm_num
  rw [hdiv, rneInt_add_half_even 4503599627370496 (by norm_num)]
  rw [zpow_neg, show ((51 : ℤ)) = ((51 : ℕ) : ℤ) from by norm_num, zpow_natCast]
  push_cast
  rw [← div_eq_mul_inv]
  norm_num

/-- The branch source order in the adjacent-doubles state is `1`. -/
theorem floatDemo_sourceOrder : branchSourceOrder floatDemoState 0 = 1 := by
  simp [branchSourceOrder, floatDemoState, baseState, floatObsA, floatObsB]

/-- The branch next-sibling order in the adjacent-doubles state is
`1 + 2 ^ (-52)`, the double directly above `1`. -/
theorem floatDemo_nextOrder : branchNextOrder floatDemoState 0 = 1 + 1 / 2 ^ 52 := by
  simp [branchNextOrder, floatDemoState, baseState, floatObsA, floatObsB]

/-- The computed branch order for the adjacent-doubles state collapses to
the source order `1`: the double sum rounds to `2` and halving gives `1`. -/
theorem floatDemo_branchOrder :
    halfB64 (addB64 (branchSourceOrder floatDemoState 0)
      (branchNextOrder floatDemoState 0)) = 1 := by
  rw [floatDemo_sourceOrder, floatDemo_nextOrder]
  rw [addB64, show ((1 : ℚ) + (1 + 1 / 2 ^ 52)) = 2 + 1 / 2 ^ 52 from by ring,
    roundB64_two_add_ulp]
  rw [halfB64, show ((2 : ℚ) / 2) = 1 from by norm_num]
  exact roundB64_eq_self ⟨1, 0, by norm_num, by norm_num⟩

/-- The branch source order in the integer-orders state is `2`. -/
theorem branchDemo_sourceOrder : branchSourceOrder branchDemoState 0 = 2 := by
  simp [branchSourceOrder, branchDemoState, baseState, branchObsA, branchObsB]

/-- The branch next-sibling order in the integer-orders state is `3`. -/
theorem branchDemo_nextOrder : branchNextOrder branchDemoState 0 = 3 := by
  simp [branchNextOrder, branchDemoState, baseState, branchObsA, branchObsB]

/-- The computed branch order for orders `2` and `3` is the exact midpoint
`5 / 2`: both the sum `5` and the half `5 / 2` are representable. -/
theorem branchDemo_branchOrder :
    halfB64 (addB64 (branchSourceOrder branchDemoState 0)
      (branchNextOrder branchDemoState 0)) = 5 / 2 := by
  rw [branchDemo_sourceOrder, branchDemo_nextOrder]
  rw [addB64, show ((2 : ℚ) + 3) = 5 from by norm_num]
  rw [roundB64_eq_self ⟨5, 0, by norm_num, by norm_num⟩]
  rw [halfB64]
  refine roundB64_eq_self ⟨5, -1, ?_, by norm_num⟩
  rw [zpow_neg, zpow_one]
  norm_num

/-- C5 counterexample: with the adjacent-double orders `1` and
`1 + 2 ^ (-52)`, branching the first observation inserts the copy with
order exactly `1` — the binary64 sum `2 + 2 ^ (-52)` ties and rounds to
the even `2`, whose half is the source order itself. The copy's order is
neither strictly between the two sibling orders nor the exact rational
midpoint, refuting the strict-betweenness and exact-midpoint claims. -/
theorem C5_counterexample_float_midpoint_collapses :
    ((handleAddObservationFromBranch false true 1 5 floatDemoState 21 "copy").1.observations.map
        (fun o => o.order))
      = [some 1, some 1, some (1 + 1 / 2 ^ 52)] ∧
    (1 : ℚ) < 1 + 1 / 2 ^ 52 ∧
    ((1 : ℚ) + (1 + 1 / 2 ^ 52)) / 2 ≠ 1 := by
  refine ⟨?_, by norm_num, by norm_num⟩
  have hidx : floatDemoState.observations.findIdx (fun o => o.id = 21) = 0 := by
    simp [floatDemoState, baseState, floatObsA, List.findIdx_cons]
  simp only [handleAddObservationFromBranch, hidx]
  rw [floatDemo_branchOrder]
  simp [floatDemoState, baseState, floatObsA, floatObsB, List.insertIdx]

/-- C5 (amended): branching observation A inserts the copy B immediately
after A, with B's order the binary64 double evaluation of
`(order(A) + order(nextSibling)) / 2`, returns B's fresh id, and B is
referenced by no harm; for non-negative representable sibling orders the
computed order lies between them non-strictly. Strict betweenness and
the exact rational midpoint can fail for adjacent doubles. -/
theorem C5_branch_inserts_float_midpoint (db storeOk : Bool)
    (projectId now : Nat) (st : PageState) (sourceObsId : Nat)
    (content : String) (idx : Nat)
    (hsucc : db = false ∨ storeOk = true)
    (hidx : st.observations.findIdx (fun o => o.id = sourceObsId) = idx)
    (hfresh : ∀ h ∈ st.harms, st.nextId ∉ h.observationIds)
    (hrA : isRepresentable (branchSourceOrder st idx))
    (hrB : isRepresentable (branchNextOrder st idx))
    (h0 : 0 ≤ branchSourceOrder st idx)
    (hAB : branchSourceOrder st idx ≤ branchNextOrder st idx) :
    (handleAddObservationFromBranch db storeOk projectId now st sourceObsId content).1.observations
      = st.observations.insertIdx (idx + 1)
          { id := st.nextId, projectId := projectId, content := content,
            order := some (halfB64 (addB64 (branchSourceOrder st idx)
              (branchNextOrder st idx))),
            createdAt := now } ∧
    (handleAddObservationFromBranch db storeOk projectId now st sourceObsId content).2.2
      = some st.nextId ∧
    getHarmsForObservation
      (handleAddObservationFromBranch db storeOk projectId now st sourceObsId content).1.harms
      st.nextId = [] ∧
    branchSourceOrder st idx
      ≤ halfB64 (addB64 (branchSourceOrder st idx) (branchNextOrder st idx)) ∧
    halfB64 (addB64 (branchSourceOrder st idx) (branchNextOrder st idx))
      ≤ branchNextOrder st idx := by
  have hmid := b64_mid_between hrA hrB h0 hAB
  have hharm : getHarmsForObservation st.harms st.nextId = [] := by
    rw [getHarmsForObservation, List.filter_eq_nil]
    intro h hh
    simpa using hfresh h hh
  cases db with
  | false =>
      refine ⟨?_, ?_, ?_, hmid.1, hmid.2⟩
      · simp [handleAddObservationFromBranch, hidx]
      · simp [handleAddObservationFromBranch, hidx]
      · simp only [handleAddObservationFromBranch, hidx]
        simpa using hharm
  | true =>
      have hso : storeOk = true := by
        rcases hsucc with h | h
        · exact absurd h (by simp)
        · exact h
      subst hso
      refine ⟨?_, ?_, ?_, hmid.1, hmid.2⟩
      · simp [handleAddObservationFromBranch, hidx]
      · simp [handleAddObservationFromBranch, hidx]
      · simp only [handleAddObservationFromBranch, hidx]
        simpa using hharm

/-- C5 witness: branching the first of two observations with orders `2`
and `3` inserts the copy at index `1` carrying the exact midpoint `5 / 2`,
which here is strictly between the sibling orders. -/
theorem C5_branch_float_witness :
    ((handleAddObservationFromBranch false true 1 7 branchDemoState 3 "copy").1.observations
        = branchDemoState.observations.insertIdx 1
            { id := branchDemoState.nextId, projectId := 1, content := "copy",
              order := some (halfB64 (addB64 (branchSourceOrder branchDemoState 0)
                (branchNextOrder branchDemoState 0))),
              createdAt := 7 } ∧
      (handleAddObservationFromBranch false true 1 7 branchDemoState 3 "copy").2.2
        = some branchDemoState.nextId ∧
      getHarmsForObservation
        (handleAddObservationFromBranch false true 1 7 branchDemoState 3 "copy").1.harms
        branchDemoState.nextId = [] ∧
      branchSourceOrder branchDemoState 0
        ≤ halfB64 (addB64 (branchSourceOrder branchDemoState 0)
            (branchNextOrder branchDemoState 0)) ∧
      halfB64 (addB64 (branchSourceOrder branchDemoState 0)
          (branchNextOrder branchDemoState 0))
        ≤ branchNextOrder branchDemoState 0) ∧
    halfB64 (addB64 (branchSourceOrder branchDemoState 0)
        (branchNextOrder branchDemoState 0)) = 5 / 2 ∧
    branchSourceOrder branchDemoState 0 < 5 / 2 ∧
    (5 : ℚ) / 2 < branchNextOrder branchDemoState 0 := by
  refine ⟨C5_branch_inserts_float_midpoint false true 1 7 branchDemoState 3 "copy" 0
      (Or.inl rfl) ?_ ?_ ?_ ?_ ?_ ?_, branchDemo_branchOrder, ?_, ?_⟩
  · simp [branchDemoState, baseState, branchObsA, List.findIdx_cons]
  · intro h hh
    simp [branchDemoState, baseState] at hh
  · rw [branchDemo_sourceOrder]
    exact ⟨2, 0, by norm_num, by decide⟩
  · rw [branchDemo_nextOrder]
    exact ⟨3, 0, by norm_num, by decide⟩
  · rw [branchDemo_sourceOrder]
    norm_num
  · rw [branchDemo_sourceOrder, branchDemo_nextOrder]
    norm_num
  · rw [branchDemo_sourceOrder]
    norm_num
  · rw [branchDemo_nextOrder]
    norm_num

/-! ## Claim C6: drag-and-drop reordering -/

/-- A list is a permutation of its element at a valid index consed onto
the remainder after erasing that index. -/
theorem perm_cons_eraseIdx_of_get {α : Type} (l : List α) :
    ∀ (i : Nat) (a : α), l.get? i = some a → l.Perm (a :: l.eraseIdx i) := by
  induction l with
  | nil => intro i a h; simp at h
  | cons b t ih =>
    intro i a h
    cases i with
    | zero =>
      simp only [List.get?_cons_zero, Option.some.injEq] at h
      subst h
      simp
    | succ i =>
      simp only [List.get?_cons_succ] at h
      have hp := ih i a h
      simpa using (hp.cons b).trans (List.Perm.swap a b (t.eraseIdx i))

/-- `arrayMove` at valid indices permutes the list. -/
theorem arrayMove_perm {α : Type} (l : List α) (i j : Nat) (a : α)
    (ha : l.get? i = some a) (hj : j < l.length) :
    (arrayMove l i j).Perm l := by
  have hi : i < l.length := by
    by_contra h
    rw [List.get?_eq_none.mpr (Nat.le_of_not_lt h)] at ha
    exact Option.noConfusion ha
  have hlen : (l.eraseIdx i).length = l.length - 1 :=
    List.length_eraseIdx_of_lt hi
  have hj' : j ≤ (l.eraseIdx i).length := by omega
  have h1 : ((l.eraseIdx i).insertIdx j a).Perm (a :: l.eraseIdx i) :=
    List.perm_insertIdx a _ hj'
  have h2 := perm_cons_eraseIdx_of_get l i a ha
  rw [arrayMove, ha]
  exact h1.trans h2.symm

/-- The order-field updates built from the reordered list read back, at
every index, the id of the observation now at that index paired with the
index. -/
theorem enum_updates_get (l : List Observation) (k : Nat) :
    (l.enum.map (fun e => (e.2.id, e.1))).get? k
      = (l.get? k).map (fun o => (o.id, k)) := by
  rw [List.get?_map, List.get?_enum]
  cases l.get? k <;> simp

/-- C6: a drag of the observation with id `activeId` (at index `i`) onto
the card with id `overId` (at index `j`) replaces the in-memory sequence
with the standard array-move — erase at `i`, insert at `j` — of the old
sequence (hence a permutation of it), and the issued order-field updates
assign every observation of the new sequence its new index. -/
theorem C6_drag_is_array_move (st : PageState) (activeId overId i j : Nat)
    (a : Observation)
    (hne : activeId ≠ overId)
    (hi : st.observations.findIdx (fun o => o.id = activeId) = i)
    (hj : st.observations.findIdx (fun o => o.id = overId) = j)
    (hilen : i < st.observations.length)
    (hjlen : j < st.observations.length)
    (ha : st.observations.get? i = some a) :
    (handleDragEnd true st activeId overId).1.observations
      = (st.observations.eraseIdx i).insertIdx j a ∧
    (handleDragEnd true st activeId overId).1.observations.Perm st.observations ∧
    ∀ k : Nat,
      (handleDragEnd true st activeId overId).2.get? k
        = ((handleDragEnd true st activeId overId).1.observations.get? k).map
            (fun o => (o.id, k)) := by
  have hru : handleDragEnd true st activeId overId
      = ({ st with observations := arrayMove st.observations i j },
         (arrayMove st.observations i j).enum.map (fun e => (e.2.id, e.1))) := by
    simp [handleDragEnd, hne, hi, hj, hilen, hjlen]
  refine ⟨?_, ?_, ?_⟩
  · rw [hru]
    show arrayMove st.observations i j = _
    rw [arrayMove, ha]
  · rw [hru]
    exact arrayMove_perm st.observations i j a ha hjlen
  · intro k
    rw [hru]
    exact enum_updates_get _ k

/-- C6 witness: dragging the first of two observations onto the second
swaps them and the first issued update assigns the new front observation
order 0. -/
theorem C6_drag_witness :
    (handleDragEnd true branchDemoState 3 4).1.observations
      = (branchDemoState.observations.eraseIdx 0).insertIdx 1 branchObsA ∧
    (handleDragEnd true branchDemoState 3 4).1.observations.Perm
      branchDemoState.observations ∧
    (handleDragEnd true branchDemoState 3 4).2.get? 0
      = ((handleDragEnd true branchDemoState 3 4).1.observations.get? 0).map
          (fun o => (o.id, 0)) := by
  have h := C6_drag_is_array_move branchDemoState 3 4 0 1 branchObsA
    (by decide) (by decide) (by decide) (by decide) (by decide) (by decide)
  exact ⟨h.1, h.2.1, h.2.2 0⟩

/-! ## Claim C2: local-only mode -/

/-- C2: with no document store configured, every page operation runs
purely locally — creates succeed with the freshly generated identifier and
append the new entity, deletes and content edits apply to the in-memory
collections, the initial load resolves to empty collections — and no
store operation is issued and no error is raised (the error banner state
is untouched), regardless of the store-success oracle, which is never
consulted. -/
theorem C2_local_only_mode_succeeds :
    ∀ (storeOk : Bool) (projectId now : Nat) (st : PageState),
      (jsTrim st.newObservation ≠ "" →
        (handleAddObservation false storeOk projectId now st).2.1 = [] ∧
        (handleAddObservation false storeOk projectId now st).2.2 = some st.nextId ∧
        (handleAddObservation false storeOk projectId now st).1.observations
          = st.observations ++
              [{ id := st.nextId, projectId := projectId,
                 content := jsTrim st.newObservation, createdAt := now }] ∧
        (handleAddObservation false storeOk projectId now st).1.errorMessage
          = st.errorMessage) ∧
      (∀ obsId : Nat,
        jsTrim ((getAssoc st.customHarmInputs obsId).getD "") ≠ "" →
        (addCustomHarm false storeOk projectId now st obsId).2.1 = [] ∧
        (addCustomHarm false storeOk projectId now st obsId).2.2 = some st.nextId ∧
        (addCustomHarm false storeOk projectId now st obsId).1.harms
          = st.harms ++
              [{ id := st.nextId, projectId := projectId, observationIds := [obsId],
                 content := jsTrim ((getAssoc st.customHarmInputs obsId).getD ""),
                 createdAt := now }] ∧
        (addCustomHarm false storeOk projectId now st obsId).1.errorMessage
          = st.errorMessage) ∧
      (∀ harmId : Nat,
        jsTrim ((getAssoc st.customCriterionInputs harmId).getD "") ≠ "" →
        (addCustomCriterion false storeOk projectId now st harmId).2.1 = [] ∧
        (addCustomCriterion false storeOk projectId now st harmId).2.2 = some st.nextId ∧
        (addCustomCriterion false storeOk projectId now st harmId).1.criteria
          = st.criteria ++
              [{ id := st.nextId, projectId := projectId, harmId := harmId,
                 content := jsTrim ((getAssoc st.customCriterionInputs harmId).getD "") }] ∧
        (addCustomCriterion false storeOk projectId now st harmId).1.errorMessage
          = st.errorMessage) ∧
      (∀ criterionId : Nat,
        jsTrim ((getAssoc st.customStrategyInputs criterionId).getD "") ≠ "" →
        (addCustomStrategy false storeOk projectId now st criterionId).2.1 = [] ∧
        (addCustomStrategy false storeOk projectId now st criterionId).2.2 = some st.nextId ∧
        (addCustomStrategy false storeOk projectId now st criterionId).1.strategies
          = st.strategies ++
              [{ id := st.nextId, projectId := projectId, criterionId := criterionId,
                 content :=
                   (if startsWithHMW (jsTrim ((getAssoc st.customStrategyInputs criterionId).getD ""))
                    then jsTrim ((getAssoc st.customStrategyInputs criterionId).getD "")
                    else "HMW " ++ jsTrim ((getAssoc st.customStrategyInputs criterionId).getD "")) }] ∧
        (addCustomStrategy false storeOk projectId now st criterionId).1.errorMessage
          = st.errorMessage) ∧
      (∀ obsId : Nat,
        (handleDeleteObservation false storeOk st obsId).2 = [] ∧
        (handleDeleteObservation false storeOk st obsId).1.observations
          = st.observations.filter (fun o => o.id ≠ obsId) ∧
        (handleDeleteObservation false storeOk st obsId).1.errorMessage
          = st.errorMessage) ∧
      (∀ harmId : Nat,
        (handleDeleteHarm false storeOk st harmId).2 = [] ∧
        (handleDeleteHarm false storeOk st harmId).1.harms
          = st.harms.filter (fun h => h.id ≠ harmId) ∧
        (handleDeleteHarm false storeOk st harmId).1.errorMessage = st.errorMessage) ∧
      (∀ criterionId : Nat,
        (handleDeleteCriterion false storeOk st criterionId).2 = [] ∧
        (handleDeleteCriterion false storeOk st criterionId).1.criteria
          = st.criteria.filter (fun c => c.id ≠ criterionId) ∧
        (handleDeleteCriterion false storeOk st criterionId).1.errorMessage
          = st.errorMessage) ∧
      (∀ strategyId : Nat,
        (handleDeleteStrategy false storeOk st strategyId).2 = [] ∧
        (handleDeleteStrategy false storeOk st strategyId).1.strategies
          = st.strategies.filter (fun x => x.id ≠ strategyId) ∧
        (handleDeleteStrategy false storeOk st strategyId).1.errorMessage
          = st.errorMessage) ∧
      (∀ (obsId : Nat) (content : String),
        (handleSaveObservationContent false projectId st obsId content).2 = [] ∧
        (handleSaveObservationContent false projectId st obsId content).1.observations
          = st.observations.map
              (fun o => if o.id = obsId then { o with content := content } else o) ∧
        (handleSaveObservationContent false projectId st obsId content).1.errorMessage
          = st.errorMessage) ∧
      (∀ (harmId : Nat) (content : String),
        (handleSaveHarmContent false projectId st harmId content).2 = [] ∧
        (handleSaveHarmContent false projectId st harmId content).1.errorMessage
          = st.errorMessage) ∧
      (∀ (criterionId : Nat) (content : String),
        (handleSaveCriterionContent false projectId st criterionId content).2 = [] ∧
        (handleSaveCriterionContent false projectId st criterionId content).1.errorMessage
          = st.errorMessage) ∧
      (∀ (strategyId : Nat) (content : String),
        (handleSaveStrategyContent false projectId st strategyId content).2 = [] ∧
        (handleSaveStrategyContent false projectId st strategyId content).1.errorMessage
          = st.errorMessage) ∧
      (∀ s : Store, loadProjectData false s projectId = ([], [], [], [])) := by
  intro storeOk projectId now st
  refine ⟨?_, ?_, ?_, ?_, ?_, ?_, ?_, ?_, ?_, ?_, ?_, ?_, ?_⟩
  · intro hne
    refine ⟨?_, ?_, ?_, ?_⟩ <;> simp [handleAddObservation, hne]
  · intro obsId hne
    refine ⟨?_, ?_, ?_, ?_⟩ <;> simp [addCustomHarm, hne]
  · intro harmId hne
    refine ⟨?_, ?_, ?_, ?_⟩ <;> simp [addCustomCriterion, hne]
  · intro criterionId hne
    refine ⟨?_, ?_, ?_, ?_⟩ <;> simp [addCustomStrategy, hne]
  · intro obsId
    refine ⟨?_, ?_, ?_⟩ <;> simp [handleDeleteObservation]
  · intro harmId
    refine ⟨?_, ?_, ?_⟩ <;> simp [handleDeleteHarm]
  · intro criterionId
    refine ⟨?_, ?_, ?_⟩ <;> simp [handleDeleteCriterion]
  · intro strategyId
    refine ⟨?_, ?_, ?_⟩ <;> simp [handleDeleteStrategy]
  · intro obsId content
    refine ⟨?_, ?_, ?_⟩ <;> simp [handleSaveObservationContent]
  · intro harmId content
    refine ⟨?_, ?_⟩ <;> simp [handleSaveHarmContent]
  · intro criterionId content
    refine ⟨?_, ?_⟩ <;> simp [handleSaveCriterionContent]
  · intro strategyId content
    refine ⟨?_, ?_⟩ <;> simp [handleSaveStrategyContent]
  · intro s
    simp [loadProjectData]

/-- C2 witness: with no store, adding the typed observation succeeds with
the generated id 10, issues no store operation, and the initial load
resolves to empty collections. -/
theorem C2_local_only_witness :
    jsTrim localDemoState.newObservation ≠ "" ∧
    (handleAddObservation false true 1 4 localDemoState).2.1 = [] ∧
    (handleAddObservation false true 1 4 localDemoState).2.2 = some 10 ∧
    loadProjectData false orderDemoStore 1 = ([], [], [], []) := by
  have h := C2_local_only_mode_succeeds true 1 4 localDemoState
  have h1 := h.1 (by decide)
  exact ⟨by decide, h1.1, h1.2.1,
    h.2.2.2.2.2.2.2.2.2.2.2.2 orderDemoStore⟩

/-! ## Claim C9: matrix export -/

/-- Strategy level of the matrix filter: keeping only the rows whose
fourth column is non-blank turns the per-criterion block into exactly one
row per strategy of that criterion. -/
theorem matrix_filter_strat_level (obs : Observation) (harm : Harm)
    (crit : Criterion) (strategies : List Strategy)
    (hs : ∀ x ∈ strategies, x.content ≠ "") :
    ((if (getStrategiesForCriterion strategies crit.id).isEmpty
      then [[obs.content, harm.content, crit.content, ""]]
      else (getStrategiesForCriterion strategies crit.id).map
        (fun strat => [obs.content, harm.content, crit.content, strat.content])).filter
          (fun r => r.getD 3 "" ≠ ""))
    = (getStrategiesForCriterion strategies crit.id).map
        (fun strat => [obs.content, harm.content, crit.content, strat.content]) := by
  by_cases h : (getStrategiesForCriterion strategies crit.id).isEmpty
  · rw [if_pos h, List.isEmpty_iff.mp h]
    simp
  · rw [if_neg h]
    apply List.filter_eq_self.mpr
    intro r hr
    rw [List.mem_map] at hr
    obtain ⟨strat, hstrat, rfl⟩ := hr
    have hmem : strat ∈ strategies :=
      (List.mem_filter.mp hstrat).1
    simp [hs strat hmem]

/-- Criterion level of the matrix filter; see
`matrix_filter_strat_level`. -/
theorem matrix_filter_crit_level (obs : Observation) (harm : Harm)
    (criteria : List Criterion) (strategies : List Strategy)
    (hs : ∀ x ∈ strategies, x.content ≠ "") :
    ((if (getCriteriaForHarm criteria harm.id).isEmpty
      then [[obs.content, harm.content, "", ""]]
      else (getCriteriaForHarm criteria harm.id).flatMap (fun crit =>
        if (getStrategiesForCriterion strategies crit.id).isEmpty
        then [[obs.content, harm.content, crit.content, ""]]
        else (getStrategiesForCriterion strategies crit.id).map
          (fun strat => [obs.content, harm.content, crit.content, strat.content]))).filter
            (fun r => r.getD 3 "" ≠ ""))
    = (getCriteriaForHarm criteria harm.id).flatMap (fun crit =>
        (getStrategiesForCriterion strategies crit.id).map
          (fun strat => [obs.content, harm.content, crit.content, strat.content])) := by
  by_cases h : (getCriteriaForHarm criteria harm.id).isEmpty
  · rw [if_pos h, List.isEmpty_iff.mp h]
    simp
  · rw [if_neg h, List.filter_flatMap]
    congr 1
    funext crit
    exact matrix_filter_strat_level obs harm crit strategies hs

/-- Observation level of the matrix filter. -/
theorem matrix_filter_obs_level (obs : Observation) (harms : List Harm)
    (criteria : List Criterion) (strategies : List Strategy)
    (hs : ∀ x ∈ strategies, x.content ≠ "") :
    ((if (getHarmsForObservation harms obs.id).isEmpty
      then [[obs.content, "", "", ""]]
      else (getHarmsForObservation harms obs.id).flatMap (fun harm =>
        if (getCriteriaForHarm criteria harm.id).isEmpty
        then [[obs.content, harm.content, "", ""]]
        else (getCriteriaForHarm criteria harm.id).flatMap (fun crit =>
          if (getStrategiesForCriterion strategies crit.id).isEmpty
          then [[obs.content, harm.content, crit.content, ""]]
          else (getStrategiesForCriterion strategies crit.id).map
            (fun strat => [obs.content, harm.content, crit.content, strat.content])))).filter
              (fun r => r.getD 3 "" ≠ ""))
    = (getHarmsForObservation harms obs.id).flatMap (fun harm =>
        (getCriteriaForHarm criteria harm.id).flatMap (fun crit =>
          (getStrategiesForCriterion strategies crit.id).map
            (fun strat => [obs.content, harm.content, crit.content, strat.content]))) := by
  by_cases h : (getHarmsForObservation harms obs.id).isEmpty
  · rw [if_pos h, List.isEmpty_iff.mp h]
    simp
  · rw [if_neg h, List.filter_flatMap]
    congr 1
    funext harm
    exact matrix_filter_crit_level obs harm criteria strategies hs

/-- C9: the matrix export opens with the header row; its data rows all
have exactly four columns and the trailing-blank shape (once a column is
blank, so are all later ones — an early-terminated branch yields a single
such row); filtering the data rows to those with a non-blank strategy
column yields exactly one row per complete
Observation-Harm-Criterion-Strategy path, in walk order, each row
duplicating the ancestor texts; and the single-chain Kitchen Study
project yields exactly the header plus one fully populated row. -/
theorem C9_matrix_rows (observations : List Observation) (harms : List Harm)
    (criteria : List Criterion) (strategies : List Strategy)
    (hh : ∀ h ∈ harms, h.content ≠ "")
    (hc : ∀ c ∈ criteria, c.content ≠ "")
    (hs : ∀ x ∈ strategies, x.content ≠ "") :
    (copyMatrixRows observations harms criteria strategies).head?
      = some matrixHeaderRow ∧
    ((copyMatrixRows observations harms criteria strategies).tail.filter
        (fun r => r.getD 3 "" ≠ ""))
      = (completePaths observations harms criteria strategies).map
          (fun p => [p.1.content, p.2.1.content, p.2.2.1.content, p.2.2.2.content]) ∧
    (∀ r ∈ (copyMatrixRows observations harms criteria strategies).tail,
      r.length = 4) ∧
    (∀ r ∈ (copyMatrixRows observations harms criteria strategies).tail,
      rowTrailingBlank r) ∧
    copyMatrixRows [kitchenObs] [kitchenHarm] [kitchenCriterion] [kitchenStrategy]
      = [matrixHeaderRow,
         [kitchenObs.content, kitchenHarm.content, kitchenCriterion.content,
          kitchenStrategy.content]] := by
  refine ⟨rfl, ?_, ?_, ?_, by decide⟩
  · rw [copyMatrixRows, List.tail_cons, List.filter_flatMap]
    have hrhs :
        (completePaths observations harms criteria strategies).map
            (fun p => [p.1.content, p.2.1.content, p.2.2.1.content, p.2.2.2.content])
          = observations.flatMap (fun obs =>
              (getHarmsForObservation harms obs.id).flatMap (fun harm =>
                (getCriteriaForHarm criteria harm.id).flatMap (fun crit =>
                  (getStrategiesForCriterion strategies crit.id).map
                    (fun strat =>
                      [obs.content, harm.content, crit.content, strat.content])))) := by
      rw [completePaths, List.map_flatMap]
      congr 1
      funext obs
      rw [List.map_flatMap]
      congr 1
      funext harm
      rw [List.map_flatMap]
      congr 1
      funext crit
      rw [List.map_map]
      rfl
    rw [hrhs]
    congr 1
    funext obs
    exact matrix_filter_obs_level obs harms criteria strategies hs
  · intro r hr
    rw [copyMatrixRows, List.tail_cons, List.mem_flatMap] at hr
    obtain ⟨obs, _, hr⟩ := hr
    by_cases h1 : (getHarmsForObservation harms obs.id).isEmpty
    · rw [if_pos h1, List.mem_singleton] at hr
      subst hr; rfl
    · rw [if_neg h1, List.mem_flatMap] at hr
      obtain ⟨harm, _, hr⟩ := hr
      by_cases h2 : (getCriteriaForHarm criteria harm.id).isEmpty
      · rw [if_pos h2, List.mem_singleton] at hr
        subst hr; rfl
      · rw [if_neg h2, List.mem_flatMap] at hr
        obtain ⟨crit, _, hr⟩ := hr
        by_cases h3 : (getStrategiesForCriterion strategies crit.id).isEmpty
        · rw [if_pos h3, List.mem_singleton] at hr
          subst hr; rfl
        · rw [if_neg h3, List.mem_map] at hr
          obtain ⟨strat, _, rfl⟩ := hr
          rfl
  · intro r hr
    rw [copyMatrixRows, List.tail_cons, List.mem_flatMap] at hr
    obtain ⟨obs, _, hr⟩ := hr
    by_cases h1 : (getHarmsForObservation harms obs.id).isEmpty
    · rw [if_pos h1, List.mem_singleton] at hr
      subst hr
      exact ⟨fun _ => ⟨rfl, rfl⟩, fun _ => rfl⟩
    · rw [if_neg h1, List.mem_flatMap] at hr
      obtain ⟨harm, hharm, hr⟩ := hr
      have hharm' : harm.content ≠ "" :=
        hh harm (List.mem_filter.mp hharm).1
      by_cases h2 : (getCriteriaForHarm criteria harm.id).isEmpty
      · rw [if_pos h2, List.mem_singleton] at hr
        subst hr
        exact ⟨fun h => absurd h hharm', fun _ => rfl⟩
      · rw [if_neg h2, List.mem_flatMap] at hr
        obtain ⟨crit, hcrit, hr⟩ := hr
        have hcrit' : crit.content ≠ "" :=
          hc crit (List.mem_filter.mp hcrit).1
        by_cases h3 : (getStrategiesForCriterion strategies crit.id).isEmpty
        · rw [if_pos h3, List.mem_singleton] at hr
          subst hr
          exact ⟨fun h => absurd h hharm', fun h => absurd h hcrit'⟩
        · rw [if_neg h3, List.mem_map] at hr
          obtain ⟨strat, _, rfl⟩ := hr
          exact ⟨fun h => absurd h hharm', fun h => absurd h hcrit'⟩

/-- C9 witness: the Kitchen Study single chain satisfies the content
hypotheses and its export is the header plus the one complete row. -/
theorem C9_matrix_witness :
    (∀ h ∈ [kitchenHarm], h.content ≠ "") ∧
    copyMatrixRows [kitchenObs] [kitchenHarm] [kitchenCriterion] [kitchenStrategy]
      = [matrixHeaderRow,
         [kitchenObs.content, kitchenHarm.content, kitchenCriterion.content,
          kitchenStrategy.content]] :=
  ⟨by decide,
    (C9_matrix_rows [kitchenObs] [kitchenHarm] [kitchenCriterion] [kitchenStrategy]
      (by decide) (by decide) (by decide)).2.2.2.2⟩

/-! ## Claim C1: suggestion toggle round-trip -/

/-- Flipping the selected flag of suggestion `sid` commutes with looking
`sid` up in the cached list. -/
theorem find?_setSelected (l : List Suggestion) (sid : Nat) (b : Bool) :
    (setSelected sid b l).find? (fun s => s.id = sid)
      = (l.find? (fun s => s.id = sid)).map (fun s => { s with selected := b }) := by
  induction l with
  | nil => rfl
  | cons a t ih =>
    by_cases h : a.id = sid
    · simp [setSelected, List.find?_cons, h]
    · have hd : (decide (a.id = sid)) = false := by simp [h]
      simp only [setSelected, List.map_cons, if_neg h, List.find?_cons, hd]
      simpa [setSelected] using ih

/-- Flipping the selected flag of strategy suggestion `sid` commutes with
looking `sid` up. -/
theorem find?_setSelectedStrat (l : List StrategySuggestion) (sid : Nat) (b : Bool) :
    (setSelectedStrat sid b l).find? (fun s => s.id = sid)
      = (l.find? (fun s => s.id = sid)).map (fun s => { s with selected := b }) := by
  induction l with
  | nil => rfl
  | cons a t ih =>
    by_cases h : a.id = sid
    · simp [setSelectedStrat, List.find?_cons, h]
    · have hd : (decide (a.id = sid)) = false := by simp [h]
      simp only [setSelectedStrat, List.map_cons, if_neg h, List.find?_cons, hd]
      simpa [setSelectedStrat] using ih

/-- Updating a present key of a record through a function is visible to a
subsequent read of that key. -/
theorem getAssoc_mapAssoc {α : Type} (m : List (Nat × α)) (k : Nat)
    (f : α → α) (v : α) (h : getAssoc m k = some v) :
    getAssoc (mapAssoc m k f) k = some (f v) := by
  induction m with
  | nil => simp [getAssoc] at h
  | cons e t ih =>
    by_cases he : e.1 = k
    · have hd : (decide (e.1 = k)) = true := by simp [he]
      have hv : e.2 = v := by
        simpa [getAssoc, List.find?_cons, hd] using h
      subst hv
      simp [getAssoc, mapAssoc, List.find?_cons, if_pos he, hd]
    · have hd : (decide (e.1 = k)) = false := by simp [he]
      have h' : getAssoc t k = some v := by
        simpa [getAssoc, List.find?_cons, hd] using h
      simpa [getAssoc, mapAssoc, List.find?_cons, if_neg he, hd] using ih h'

/-- Round-trip kernel: appending a fresh element `e` satisfying the match
predicate and then removing, by id, the first match of the whole list
leaves the projection multiset unchanged, provided every old match
projects like `e` does. -/
theorem toggle_roundtrip_filter_perm {α β : Type} (idf : α → Nat) (pf : α → β)
    (p : α → Bool) :
    ∀ (l : List α) (e h₀ : α),
      (∀ x ∈ l, idf x ≠ idf e) →
      l.Pairwise (fun x y => idf x ≠ idf y) →
      p e = true →
      (∀ x ∈ l, p x = true → pf x = pf e) →
      (l ++ [e]).find? p = some h₀ →
      (((l ++ [e]).filter (fun x => idf x ≠ idf h₀)).map pf).Perm (l.map pf) := by
  intro l
  induction l with
  | nil =>
    intro e h₀ _ _ hpe _ hfind
    rw [List.nil_append, List.find?_cons, hpe] at hfind
    injection hfind with h
    subst h
    simp
  | cons a t ih =>
    intro e h₀ hne hpw hpe hmatch hfind
    rw [List.cons_append, List.find?_cons] at hfind
    by_cases hpa : p a = true
    · rw [hpa] at hfind
      injection hfind with h
      subst h
      have hkeep : ∀ x ∈ t ++ [e], (decide (idf x ≠ idf a)) = true := by
        intro x hx
        simp only [decide_eq_true_eq]
        rcases List.mem_append.mp hx with hx | hx
        · have hax := (List.pairwise_cons.mp hpw).1 x hx
          exact fun hxe => hax hxe.symm
        · rw [List.mem_singleton] at hx
          subst hx
          have hae := hne a (List.mem_cons_self a t)
          exact fun hxe => hae hxe.symm
      have hdrop : (decide (idf a ≠ idf a)) = false := by simp
      rw [List.cons_append, List.filter_cons, hdrop,
        if_neg (fun hco => Bool.false_ne_true hco),
        List.filter_eq_self.mpr hkeep, List.map_append, List.map_cons]
      have hpfa : pf a = pf e := hmatch a (List.mem_cons_self a t) hpa
      rw [← hpfa]
      exact List.perm_append_singleton _ _
    · have hpa' : p a = false := Bool.eq_false_iff.mpr hpa
      rw [hpa'] at hfind
      have hh₀mem : h₀ ∈ t ++ [e] := List.mem_of_find?_eq_some hfind
      have hane : idf a ≠ idf h₀ := by
        rcases List.mem_append.mp hh₀mem with hx | hx
        · exact (List.pairwise_cons.mp hpw).1 h₀ hx
        · rw [List.mem_singleton] at hx
          subst hx
          exact hne a (List.mem_cons_self a t)
      have ihh := ih e h₀
        (fun x hx => hne x (List.mem_cons_of_mem a hx))
        (List.pairwise_cons.mp hpw).2 hpe
        (fun x hx hp => hmatch x (List.mem_cons_of_mem a hx) hp) hfind
      rw [List.cons_append, List.filter_cons]
      have hkeepa : (decide (idf a ≠ idf h₀)) = true := by simp [hane]
      rw [hkeepa, if_pos rfl, List.map_cons, List.map_cons]
      exact ihh.cons (pf a)

/-- C1: toggling an unselected suggestion on and then off again restores
the multiset of (content, parent) pairs of the persisted collection, for
all three parent kinds — harms under an observation, criteria under a
harm, strategies under a criterion — including when an entity with the
same content already existed under that parent (the store then keeps the
other copy: toggle-off deletes exactly one matching document). Hypotheses:
the store is configured and writes succeed, the in-memory collection
mirrors the store, store ids are distinct and below the id counter, the
suggestion is cached under the parent and currently unselected, and (for
harms) every persisted harm references exactly one observation. -/
theorem C1_toggle_roundtrip_restores_store :
    (∀ (projectId now : Nat) (st : PageState) (obsId sid : Nat)
        (sl : List Suggestion) (sug : Suggestion),
      st.harms = st.storeHarms →
      (st.storeHarms.map (fun h => h.id)).Nodup →
      (∀ h ∈ st.storeHarms, h.id < st.nextId) →
      (∀ h ∈ st.storeHarms, h.observationIds.length = 1) →
      getAssoc st.harmSuggestions obsId = some sl →
      sl.find? (fun s => s.id = sid) = some sug →
      sug.selected = false →
      ((((toggleHarmSuggestion true true projectId now
            (toggleHarmSuggestion true true projectId now st obsId sid).1
            obsId sid).1.storeHarms.map
          (fun h => (h.content, h.observationIds))) : Multiset (String × List Nat))
        = ↑(st.storeHarms.map (fun h => (h.content, h.observationIds))))) ∧
    (∀ (projectId now : Nat) (st : PageState) (harmId sid : Nat)
        (sl : List Suggestion) (sug : Suggestion),
      st.criteria = st.storeCriteria →
      (st.storeCriteria.map (fun c => c.id)).Nodup →
      (∀ c ∈ st.storeCriteria, c.id < st.nextId) →
      getAssoc st.criterionSuggestions harmId = some sl →
      sl.find? (fun s => s.id = sid) = some sug →
      sug.selected = false →
      ((((toggleCriterionSuggestion true true projectId now
            (toggleCriterionSuggestion true true projectId now st harmId sid).1
            harmId sid).1.storeCriteria.map
          (fun c => (c.content, c.harmId))) : Multiset (String × Nat))
        = ↑(st.storeCriteria.map (fun c => (c.content, c.harmId))))) ∧
    (∀ (projectId now : Nat) (st : PageState) (criterionId sid : Nat)
        (sl : List StrategySuggestion) (sug : StrategySuggestion),
      st.strategies = st.storeStrategies →
      (st.storeStrategies.map (fun x => x.id)).Nodup →
      (∀ x ∈ st.storeStrategies, x.id < st.nextId) →
      getAssoc st.strategySuggestions criterionId = some sl →
      sl.find? (fun s => s.id = sid) = some sug →
      sug.selected = false →
      ((((toggleStrategySuggestion true true projectId now
            (toggleStrategySuggestion true true projectId now st criterionId sid).1
            criterionId sid).1.storeStrategies.map
          (fun x => (x.content, x.criterionId))) : Multiset (String × Nat))
        = ↑(st.storeStrategies.map (fun x => (x.content, x.criterionId))))) := by
  refine ⟨?_, ?_, ?_⟩
  · intro projectId now st obsId sid sl sug hsync hnodup hfresh hsingle hcache hfind hsel
    have h1 : (toggleHarmSuggestion true true projectId now st obsId sid).1
        = { st with
            nextId := st.nextId + 1
            storeHarms := st.storeHarms ++
              [{ id := st.nextId, projectId := projectId, observationIds := [obsId],
                 content := sug.content, createdAt := now }]
            harms := st.harms ++
              [{ id := st.nextId, projectId := projectId, observationIds := [obsId],
                 content := sug.content, createdAt := now }]
            harmSuggestions := mapAssoc st.harmSuggestions obsId (setSelected sid true) } := by
      simp [toggleHarmSuggestion, hcache, hfind, hsel]
    have hsugg2 : getAssoc (mapAssoc st.harmSuggestions obsId (setSelected sid true)) obsId
        = some (setSelected sid true sl) :=
      getAssoc_mapAssoc st.harmSuggestions obsId (setSelected sid true) sl hcache
    have hfind2 : (setSelected sid true sl).find? (fun s => s.id = sid)
        = some { sug with selected := true } := by
      rw [find?_setSelected, hfind]
      rfl
    have hpnew : (fun h : Harm =>
        decide (h.content = sug.content ∧ obsId ∈ h.observationIds))
          ({ id := st.nextId, projectId := projectId, observationIds := [obsId],
             content := sug.content, createdAt := now } : Harm) = true := by
      simp
    have hexists : ((st.storeHarms ++
        [({ id := st.nextId, projectId := projectId, observationIds := [obsId],
            content := sug.content, createdAt := now } : Harm)]).find?
          (fun h : Harm => decide (h.content = sug.content ∧ obsId ∈ h.observationIds))).isSome := by
      rw [List.find?_isSome]
      refine ⟨({ id := st.nextId, projectId := projectId, observationIds := [obsId],
                 content := sug.content, createdAt := now } : Harm), ?_, hpnew⟩
      simp
    obtain ⟨h₀, hh₀⟩ := Option.isSome_iff_exists.mp hexists
    rw [h1]
    simp only [toggleHarmSuggestion, hsugg2, Option.getD_some, hfind2, hsync, hh₀]
    simp only [Bool.and_self, if_true]
    apply Multiset.coe_eq_coe.mpr
    refine toggle_roundtrip_filter_perm (fun h : Harm => h.id)
      (fun h : Harm => (h.content, h.observationIds))
      (fun h : Harm => decide (h.content = sug.content ∧ obsId ∈ h.observationIds))
      st.storeHarms
      ({ id := st.nextId, projectId := projectId, observationIds := [obsId],
         content := sug.content, createdAt := now } : Harm) h₀
      (fun x hx => Nat.ne_of_lt (hfresh x hx))
      (List.pairwise_map.mp hnodup) hpnew ?_ hh₀
    intro x hx hp
    simp only [decide_eq_true_eq] at hp
    obtain ⟨hcontent, hmem⟩ := hp
    obtain ⟨y, hy⟩ := List.length_eq_one.mp (hsingle x hx)
    rw [hy, List.mem_singleton] at hmem
    subst hmem
    rw [Prod.mk.injEq]
    exact ⟨hcontent, hy⟩
  · intro projectId now st harmId sid sl sug hsync hnodup hfresh hcache hfind hsel
    have h1 : (toggleCriterionSuggestion true true projectId now st harmId sid).1
        = { st with
            nextId := st.nextId + 1
            storeCriteria := st.storeCriteria ++
              [{ id := st.nextId, projectId := projectId, harmId := harmId,
                 content := sug.content }]
            criteria := st.criteria ++
              [{ id := st.nextId, projectId := projectId, harmId := harmId,
                 content := sug.content }]
            criterionSuggestions := mapAssoc st.criterionSuggestions harmId (setSelected sid true) } := by
      simp [toggleCriterionSuggestion, hcache, hfind, hsel]
    have hsugg2 : getAssoc (mapAssoc st.criterionSuggestions harmId (setSelected sid true)) harmId
        = some (setSelected sid true sl) :=
      getAssoc_mapAssoc st.criterionSuggestions harmId (setSelected sid true) sl hcache
    have hfind2 : (setSelected sid true sl).find? (fun s => s.id = sid)
        = some { sug with selected := true } := by
      rw [find?_setSelected, hfind]
      rfl
    have hpnew : (fun c : Criterion =>
        decide (c.content = sug.content ∧ c.harmId = harmId))
          ({ id := st.nextId, projectId := projectId, harmId := harmId,
             content := sug.content } : Criterion) = true := by
      simp
    have hexists : ((st.storeCriteria ++
        [({ id := st.nextId, projectId := projectId, harmId := harmId,
            content := sug.content } : Criterion)]).find?
          (fun c : Criterion => decide (c.content = sug.content ∧ c.harmId = harmId))).isSome := by
      rw [List.find?_isSome]
      refine ⟨({ id := st.nextId, projectId := projectId, harmId := harmId,
                 content := sug.content } : Criterion), ?_, hpnew⟩
      simp
    obtain ⟨h₀, hh₀⟩ := Option.isSome_iff_exists.mp hexists
    rw [h1]
    simp only [toggleCriterionSuggestion, hsugg2, Option.getD_some, hfind2, hsync, hh₀]
    simp only [Bool.and_self, if_true]
    apply Multiset.coe_eq_coe.mpr
    refine toggle_roundtrip_filter_perm (fun c : Criterion => c.id)
      (fun c : Criterion => (c.content, c.harmId))
      (fun c : Criterion => decide (c.content = sug.content ∧ c.harmId = harmId))
      st.storeCriteria
      ({ id := st.nextId, projectId := projectId, harmId := harmId,
         content := sug.content } : Criterion) h₀
      (fun x hx => Nat.ne_of_lt (hfresh x hx))
      (List.pairwise_map.mp hnodup) hpnew ?_ hh₀
    intro x hx hp
    simp only [decide_eq_true_eq] at hp
    obtain ⟨hcontent, hhid⟩ := hp
    rw [Prod.mk.injEq]
    exact ⟨hcontent, hhid⟩
  · intro projectId now st criterionId sid sl sug hsync hnodup hfresh hcache hfind hsel
    have h1 : (toggleStrategySuggestion true true projectId now st criterionId sid).1
        = { st with
            nextId := st.nextId + 1
            storeStrategies := st.storeStrategies ++
              [{ id := st.nextId, projectId := projectId, criterionId := criterionId,
                 content := sug.content, strategyType := some sug.stype }]
            strategies := st.strategies ++
              [{ id := st.nextId, projectId := projectId, criterionId := criterionId,
                 content := sug.content, strategyType := some sug.stype }]
            strategySuggestions := mapAssoc st.strategySuggestions criterionId (setSelectedStrat sid true) } := by
      simp [toggleStrategySuggestion, hcache, hfind, hsel]
    have hsugg2 : getAssoc (mapAssoc st.strategySuggestions criterionId (setSelectedStrat sid true)) criterionId
        = some (setSelectedStrat sid true sl) :=
      getAssoc_mapAssoc st.strategySuggestions criterionId (setSelectedStrat sid true) sl hcache
    have hfind2 : (setSelectedStrat sid true sl).find? (fun s => s.id = sid)
        = some { sug with selected := true } := by
      rw [find?_setSelectedStrat, hfind]
      rfl
    have hpnew : (fun x : Strategy =>
        decide (x.content = sug.content ∧ x.criterionId = criterionId))
          ({ id := st.nextId, projectId := projectId, criterionId := criterionId,
             content := sug.content, strategyType := some sug.stype } : Strategy) = true := by
      simp
    have hexists : ((st.storeStrategies ++
        [({ id := st.nextId, projectId := projectId, criterionId := criterionId,
            content := sug.content, strategyType := some sug.stype } : Strategy)]).find?
          (fun x : Strategy => decide (x.content = sug.content ∧ x.criterionId = criterionId))).isSome := by
      rw [List.find?_isSome]
      refine ⟨({ id := st.nextId, projectId := projectId, criterionId := criterionId,
                 content := sug.content, strategyType := some sug.stype } : Strategy), ?_, hpnew⟩
      simp
    obtain ⟨h₀, hh₀⟩ := Option.isSome_iff_exists.mp hexists
    rw [h1]
    simp only [toggleStrategySuggestion, hsugg2, Option.getD_some, hfind2, hsync, hh₀]
    simp only [Bool.and_self, if_true]
    apply Multiset.coe_eq_coe.mpr
    refine toggle_roundtrip_filter_perm (fun x : Strategy => x.id)
      (fun x : Strategy => (x.content, x.criterionId))
      (fun x : Strategy => decide (x.content = sug.content ∧ x.criterionId = criterionId))
      st.storeStrategies
      ({ id := st.nextId, projectId := projectId, criterionId := criterionId,
         content := sug.content, strategyType := some sug.stype } : Strategy) h₀
      (fun x hx => Nat.ne_of_lt (hfresh x hx))
      (List.pairwise_map.mp hnodup) hpnew ?_ hh₀
    intro x hx hp
    simp only [decide_eq_true_eq] at hp
    obtain ⟨hcontent, hcid⟩ := hp
    rw [Prod.mk.injEq]
    exact ⟨hcontent, hcid⟩

/-- C1 witness: toggling suggestion 7 on and off under observation 5, in a
store that already holds a harm with identical content under that
observation, restores the persisted (content, parents) multiset. -/
theorem C1_toggle_witness :
    toggleDemoState.harms = toggleDemoState.storeHarms ∧
    ((((toggleHarmSuggestion true true 1 3
          (toggleHarmSuggestion true true 1 3 toggleDemoState 5 7).1 5 7).1.storeHarms.map
        (fun h => (h.content, h.observationIds))) : Multiset (String × List Nat))
      = ↑(toggleDemoState.storeHarms.map (fun h => (h.content, h.observationIds)))) :=
  ⟨rfl,
    C1_toggle_roundtrip_restores_store.1 1 3 toggleDemoState 5 7
      [{ id := 7, content := "duplicate content", selected := false }]
      { id := 7, content := "duplicate content", selected := false }
      rfl (by decide) (by decide) (by decide) (by decide) (by decide) rfl⟩

end OTI
